import Mathlib

/-!
# vnef-video: container probe, byte-source adapter and frame scheduler

A shallow embedding of `src/src/vnef_video.c`.

* C `int64_t` / `int` values are `Int`; where the C code can overflow the
  result is reduced explicitly (`wrap64`, `wrap32`).  `uint32_t` / `uint64_t`
  / `size_t` values are `Nat`, reduced `% 2^32` / `% 2^64`.
* A `FILE *` is a regular file: its bytes and the stream position.
* The libav* engines (demuxer, decoders, scaler, resampler) are not part of
  the repository; they are parameters of the model (`Engine`).
-/

namespace VnefVideo

/-! ## Machine integers -/

/-- One octet. -/
abbrev Byte := Fin 256

/-- Reduction of a mathematical integer to the `int64_t` it is stored as. -/
def wrap64 (x : Int) : Int := (x + 2 ^ 63) % 2 ^ 64 - 2 ^ 63

/-- Reduction of a mathematical integer to the `int` (32 bit) it is stored as. -/
def wrap32 (x : Int) : Int := (x + 2 ^ 31) % 2 ^ 32 - 2 ^ 31

/-- The cast `(uint64_t)x` / `(size_t)x` of a signed value. -/
def toU64 (x : Int) : Nat := (x % 2 ^ 64).toNat

/-! ## Constants of the C library and of libavformat / libavutil

These come from `<stdio.h>`, `<errno.h>`, `libavformat/avio.h` and
`libavutil/error.h`, which the repository includes but does not contain. -/

/-- Value of `SEEK_SET` in `<stdio.h>`. -/
def SEEK_SET : Int := 0
/-- Value of `SEEK_CUR` in `<stdio.h>`. -/
def SEEK_CUR : Int := 1
/-- Value of `SEEK_END` in `<stdio.h>`. -/
def SEEK_END : Int := 2
/-- Value of `AVSEEK_SIZE` in `libavformat/avio.h` (`0x10000`). -/
def AVSEEK_SIZE : Int := 65536
/-- Value of `AVERROR_EOF`, that is `-MKTAG('E','O','F',' ')`. -/
def AVERROR_EOF : Int := -541478725
/-- Value of `AVERROR(EAGAIN)` (`EAGAIN = 11`). -/
def AVERROR_EAGAIN : Int := -11
/-- Value of `AVERROR(EIO)` (`EIO = 5`). -/
def AVERROR_EIO : Int := -5
/-- Value of `AV_NOPTS_VALUE`, that is `(int64_t)0x8000000000000000`. -/
def AV_NOPTS_VALUE : Int := -(2 ^ 63)

/-! ## The raw file layer (`FILE *` of a regular file) -/

/-- An open binary stream on a regular file: the file content and the
stream position. -/
structure FILE where
  bytes : List Byte
  cursor : Nat
  deriving DecidableEq, Repr

/-- Source `vne_file_tell` (`ftello`): the stream position, or `-1` when it is
not representable in `off_t`. -/
def vne_file_tell (fp : FILE) : Int :=
  if fp.cursor < 2 ^ 63 then (fp.cursor : Int) else -1

/-- Source `vne_file_seek` (`fseeko`): returns `0` and moves the stream
position, or returns `-1` and leaves it alone when the resulting position is
negative or not representable, or `whence` is unknown.  Seeking beyond the end
of a regular file is allowed. -/
def vne_file_seek (fp : FILE) (offset : Int) (whence : Int) : Int × FILE :=
  let base : Option Int :=
    if whence = SEEK_SET then some 0
    else if whence = SEEK_CUR then some (fp.cursor : Int)
    else if whence = SEEK_END then some (fp.bytes.length : Int)
    else none
  match base with
  | none => (-1, fp)
  | some b =>
    let target := b + offset
    if 0 ≤ target ∧ target < 2 ^ 63 then (0, { fp with cursor := target.toNat })
    else (-1, fp)

/-- Library `fread(buf, 1, n, fp)`: the bytes delivered (at most `n`, fewer at
the end of the file) and the advanced stream. -/
def fread (fp : FILE) (n : Nat) : List Byte × FILE :=
  let got := (fp.bytes.drop fp.cursor).take n
  (got, { fp with cursor := fp.cursor + got.length })

/-- Source `vne_file_size`. -/
def vne_file_size (fp : FILE) : Int × FILE :=
  let cur := vne_file_tell fp
  if cur < 0 then (-1, fp)
  else
    let r1 := vne_file_seek fp 0 SEEK_END
    if r1.1 ≠ 0 then (-1, r1.2)
    else
      let size := vne_file_tell r1.2
      let r2 := vne_file_seek r1.2 cur SEEK_SET
      (size, r2.2)

/-! ## Container probe -/

/-- The four bytes of the literal `"VID0"`. -/
def MAGIC : List Byte := [86, 73, 68, 48]

/-- Read of `hdr[i]` widened to an unsigned integer. -/
def hdrAt (hdr : List Byte) (i : Nat) : Nat := (hdr.getD i 0).val

/-- The expression assembling `version` in `vne_video_probe_header`. -/
def probe_version (hdr : List Byte) : Nat :=
  (hdrAt hdr 4
    ||| ((hdrAt hdr 5 <<< 8) % 2 ^ 32)
    ||| ((hdrAt hdr 6 <<< 16) % 2 ^ 32)
    ||| ((hdrAt hdr 7 <<< 24) % 2 ^ 32)) % 2 ^ 32

/-- The expression assembling `size` in `vne_video_probe_header`. -/
def probe_size (hdr : List Byte) : Nat :=
  (hdrAt hdr 8
    ||| ((hdrAt hdr 9 <<< 8) % 2 ^ 64)
    ||| ((hdrAt hdr 10 <<< 16) % 2 ^ 64)
    ||| ((hdrAt hdr 11 <<< 24) % 2 ^ 64)
    ||| ((hdrAt hdr 12 <<< 32) % 2 ^ 64)
    ||| ((hdrAt hdr 13 <<< 40) % 2 ^ 64)
    ||| ((hdrAt hdr 14 <<< 48) % 2 ^ 64)
    ||| ((hdrAt hdr 15 <<< 56) % 2 ^ 64)) % 2 ^ 64

/-- Result of `vne_video_probe_header`: the returned `int`, the content of
`*out_size` afterwards, and the stream afterwards. -/
structure ProbeResult where
  ret : Int
  out_size : Int
  fp : FILE
  deriving DecidableEq, Repr

/-- Source `vne_video_probe_header`.  `out_size` is the content of `*out_size`
on entry; it is only overwritten on the path that returns `1`. -/
def vne_video_probe_header (fp : FILE) (out_size : Int) : ProbeResult :=
  let s := vne_file_seek fp 0 SEEK_SET
  if s.1 ≠ 0 then ⟨-1, out_size, s.2⟩
  else
    let r := fread s.2 16
    let hdr := r.1
    if hdr.length ≠ 16 then ⟨0, out_size, r.2⟩
    else if hdr.take 4 ≠ MAGIC then ⟨0, out_size, r.2⟩
    else
      let version := probe_version hdr
      if version ≠ 1 then ⟨-1, out_size, r.2⟩
      else
        let size := probe_size hdr
        let t := vne_file_size r.2
        let total := t.1
        if total < 0 ∨ total < 16 then ⟨-1, out_size, t.2⟩
        else
          let size := if size = 0 then toU64 (total - 16) else size
          if size > toU64 (total - 16) then ⟨-1, out_size, t.2⟩
          else ⟨1, wrap64 (size : Int), t.2⟩

/-! ## Byte-source adapter -/

/-- Source `struct VNEVideoIO`.  `fp = none` is the null stream pointer. -/
structure VNEVideoIO where
  fp : Option FILE
  data_offset : Int
  data_size : Int
  pos : Int
  deriving DecidableEq, Repr

/-- Result of `vne_video_read`: the returned `int`, the bytes stored at the
start of `buf`, and the adapter afterwards. -/
structure ReadResult where
  ret : Int
  buf : List Byte
  io : Option VNEVideoIO
  deriving DecidableEq, Repr

/-- Source `vne_video_read`.  A `none` argument is the null adapter pointer. -/
def vne_video_read (io_ptr : Option VNEVideoIO) (buf_size : Int) : ReadResult :=
  match io_ptr with
  | none => ⟨AVERROR_EOF, [], none⟩
  | some io =>
    match io.fp with
    | none => ⟨AVERROR_EOF, [], some io⟩
    | some fp =>
      let remaining := wrap64 (io.data_size - io.pos)
      if remaining ≤ 0 then ⟨AVERROR_EOF, [], some io⟩
      else
        let to_read := if buf_size > remaining then wrap32 remaining else buf_size
        let target := wrap64 (io.data_offset + io.pos)
        let s := vne_file_seek fp target SEEK_SET
        if s.1 ≠ 0 then ⟨ AVERROR_EIO, [], some { io with fp := some s.2 }⟩
        else
          let r := fread s.2 (toU64 to_read)
          let got := r.1.length
          if got = 0 then ⟨AVERROR_EOF, [], some { io with fp := some r.2 }⟩
          else
            ⟨wrap32 (got : Int), r.1,
              some { io with fp := some r.2, pos := wrap64 (io.pos + (got : Int)) }⟩

/-- Result of `vne_video_seek`: the returned `int64_t` and the adapter
afterwards. -/
structure SeekResult where
  ret : Int
  io : Option VNEVideoIO
  deriving DecidableEq, Repr

/-- Source `vne_video_seek`. -/
def vne_video_seek (io_ptr : Option VNEVideoIO) (offset : Int) (whence : Int) : SeekResult :=
  match io_ptr with
  | none => ⟨-1, none⟩
  | some io =>
    match io.fp with
    | none => ⟨-1, some io⟩
    | some _ =>
      if whence = AVSEEK_SIZE then ⟨io.data_size, some io⟩
      else
        let target : Option Int :=
          if whence = SEEK_SET then some offset
          else if whence = SEEK_CUR then some (wrap64 (io.pos + offset))
          else if whence = SEEK_END then some (wrap64 (io.data_size + offset))
          else none
        match target with
        | none => ⟨-1, some io⟩
        | some new_pos =>
          if new_pos < 0 then ⟨-1, some io⟩
          else
            let new_pos := if new_pos > io.data_size then io.data_size else new_pos
            ⟨new_pos, some { io with pos := new_pos }⟩

/-! ## Data exchanged with the libav* engines -/

/-- An `AVRational`. -/
structure AVRational where
  num : Int
  den : Int
  deriving DecidableEq, Repr

/-- The fields of an `AVFrame` read by the source; `data` stands for the
sample planes. -/
structure AVFrame where
  width : Int
  height : Int
  format : Int
  nb_samples : Int
  best_effort_timestamp : Int
  data : Nat
  deriving DecidableEq, Repr

/-- The fields of an `AVPacket` read by the source; `data` stands for the
compressed payload. -/
structure AVPacket where
  stream_index : Int
  data : Nat
  deriving DecidableEq, Repr

/-- Header `enum VNEFrameType`. -/
inductive VNEFrameType where
  | VNE_FRAME_NONE
  | VNE_FRAME_VIDEO
  | VNE_FRAME_AUDIO
  | VNE_FRAME_EOF
  | VNE_FRAME_ERROR
  deriving DecidableEq, Repr

open VNEFrameType

/-- Header `struct VNEVideoInfo`. -/
structure VNEVideoInfo where
  width : Int
  height : Int
  fps_num : Int
  fps_den : Int
  duration_ms : Int
  has_audio : Int
  sample_rate : Int
  channels : Int
  deriving DecidableEq, Repr

/-- Header `struct VNEVideoFrame`; `data` is an address, `0` the null pointer. -/
structure VNEVideoFrame where
  width : Int
  height : Int
  stride : Int
  pts_ms : Int
  data : Nat
  deriving DecidableEq, Repr

/-- Header `struct VNEAudioFrame`; `data` is an address, `0` the null pointer. -/
structure VNEAudioFrame where
  sample_rate : Int
  channels : Int
  nb_samples : Int
  bytes_per_sample : Int
  pts_ms : Int
  data : Nat
  deriving DecidableEq, Repr

/-- Value of `AVMEDIA_TYPE_VIDEO` in `libavutil/avutil.h`. -/
def AVMEDIA_TYPE_VIDEO : Int := 0
/-- Value of `AVMEDIA_TYPE_AUDIO` in `libavutil/avutil.h`. -/
def AVMEDIA_TYPE_AUDIO : Int := 1
/-- Value of `AV_SAMPLE_FMT_S16` in `libavutil/samplefmt.h`. -/
def AV_SAMPLE_FMT_S16 : Int := 1
/-- The external collaborators of the source: the C allocator, `fopen`, and
the libavformat / libavcodec / libswscale / libswresample calls it makes.
`D` is the state behind an `AVFormatContext *` (with its byte source), `C`
the state behind an `AVCodecContext *`, `R` the state behind a
`SwrContext *`.  Every field is one library call, named after it; a call that
updates the object it is given returns the updated state; `av_frame_alloc n`
is the outcome of the `n`-th call of `av_frame_alloc`. -/
structure Engine where
  D : Type
  C : Type
  R : Type
  calloc_handle : Bool
  calloc_io : Bool
  fopen : String → Option FILE
  av_malloc : Nat → Nat
  avio_alloc_context : VNEVideoIO → Bool
  avformat_alloc_context : Bool
  avformat_open_input_io : VNEVideoIO → Except Int D
  avformat_open_input_path : String → Except Int D
  avformat_find_stream_info : D → Int × D
  av_find_best_stream : D → Int → Int
  stream_time_base : D → Int → AVRational
  stream_codec_id : D → Int → Int
  av_guess_frame_rate : D → Int → AVRational
  duration : D → Int
  av_read_frame : D → Int × AVPacket × D
  av_seek_frame : D → Int → Int → Int → Int × D
  avcodec_find_decoder : Int → Bool
  avcodec_alloc_context3 : Int → Option C
  avcodec_parameters_to_context : C → D → Int → Int × C
  avcodec_open2 : C → Int × C
  avcodec_receive_frame : C → Int × AVFrame × C
  avcodec_send_packet : C → Option AVPacket → Int × C
  avcodec_flush_buffers : C → C
  ctx_width : C → Int
  ctx_height : C → Int
  ctx_pix_fmt : C → Int
  ctx_sample_rate : C → Int
  ctx_sample_fmt : C → Int
  ctx_nb_channels : C → Int
  ctx_channels : C → Int
  av_frame_alloc : Nat → Bool
  av_packet_alloc : Bool
  av_frame_unref : AVFrame → AVFrame
  av_packet_unref : AVPacket → AVPacket
  sws_getContext : Int → Int → Int → Bool
  av_image_alloc : Int → Int → Int × Nat × Int
  sws_scale : AVFrame → Int → Int
  swr_alloc_set_opts2 : Int → Int → Int → Int × Option R
  swr_init : R → Int × R
  av_opt_get_sample_fmt : R → Int → Int
  swr_get_delay : R → Int → Int
  swr_convert : R → Int → AVFrame → Int → Int × R
  av_rescale_q : Int → AVRational → AVRational → Int
  av_rescale_rnd_up : Int → Int → Int → Int
  av_samples_get_buffer_size : Int → Int → Int
  av_strerror : Int → String

/-- Source `struct VNEVideo`.  A pointer member is an `Option` of the state
it points to (`none` is the null pointer); `sws` and `avio` only record
whether the pointer is non-null; `vstream` / `astream` hold the time base of
the stream pointed to; `vframe`, `aframe`, `pkt` hold the content of the
scratch objects, which every handle returned by `vne_video_open` owns. -/
structure VNEVideo (E : Engine) where
  fmt : Option E.D
  vdec : Option E.C
  adec : Option E.C
  vstream : Option AVRational
  astream : Option AVRational
  vstream_index : Int
  astream_index : Int
  vframe : AVFrame
  aframe : AVFrame
  pkt : AVPacket
  sws : Bool
  swr : Option E.R
  sws_w : Int
  sws_h : Int
  sws_fmt : Int
  out_sample_fmt : Int
  avio : Bool
  io : Option VNEVideoIO
  eof : Int
  last_error : String

/-- Source `set_error` on a non-null handle with a non-null message
(`snprintf` into `last_error[256]`). -/
def set_error {E : Engine} (v : VNEVideo E) (msg : String) : VNEVideo E :=
  { v with last_error := msg.take 255 }

/-- Source `set_ff_error`. -/
def set_ff_error {E : Engine} (v : VNEVideo E) (err : Int) (context : String) : VNEVideo E :=
  set_error v ((context ++ ": " ++ (E.av_strerror err).take 127).take 255)

/-- Source `pts_to_ms`; `st` is the time base of the stream, `none` for a
null stream pointer. -/
def pts_to_ms (E : Engine) (st : Option AVRational) (pts : Int) : Int :=
  match st with
  | none => -1
  | some tb => if pts = AV_NOPTS_VALUE then -1 else E.av_rescale_q pts tb ⟨1, 1000⟩

/-! ## Decode and convert glue -/

/-- Result of `try_receive_video`: the returned `int`, the handle afterwards
and the content of the output slot afterwards. -/
structure RecvVideo (E : Engine) where
  ret : Int
  v : VNEVideo E
  out_video : Option VNEVideoFrame

/-- Source `try_receive_video`.  `out_video = none` is a null output slot. -/
def try_receive_video {E : Engine} (v : VNEVideo E) (out_video : Option VNEVideoFrame) :
    RecvVideo E :=
  match v.vdec, out_video with
  | some dec, some _ =>
    let r := E.avcodec_receive_frame dec
    let ret := r.1
    let v := { v with vdec := some r.2.2, vframe := r.2.1 }
    if ret = AVERROR_EAGAIN ∨ ret = AVERROR_EOF then ⟨0, v, out_video⟩
    else if ret < 0 then ⟨-1, set_ff_error v ret "video receive_frame failed", out_video⟩
    else
      let width := v.vframe.width
      let height := v.vframe.height
      let fmt := v.vframe.format
      if width ≤ 0 ∨ height ≤ 0 then ⟨-1, set_error v "invalid video frame size", out_video⟩
      else
        let stale := v.sws = false ∨ v.sws_w ≠ width ∨ v.sws_h ≠ height ∨ v.sws_fmt ≠ fmt
        let ctx := if stale then E.sws_getContext width height fmt else v.sws
        if ctx = false then
          ⟨-1, set_error { v with sws := false } "failed to create sws context", out_video⟩
        else
          let v :=
            if stale then { v with sws := true, sws_w := width, sws_h := height, sws_fmt := fmt }
            else v
          let a := E.av_image_alloc width height
          let buf_size := a.1
          if buf_size < 0 then
            ⟨-1, set_ff_error v buf_size "failed to allocate video image buffer", out_video⟩
          else
            let scaled := E.sws_scale v.vframe height
            if scaled ≤ 0 then ⟨-1, set_error v "sws_scale failed", out_video⟩
            else
              let best_pts := v.vframe.best_effort_timestamp
              let out : VNEVideoFrame :=
                { width := width, height := height, stride := a.2.2, data := a.2.1,
                  pts_ms := pts_to_ms E v.vstream best_pts }
              ⟨1, { v with vframe := E.av_frame_unref v.vframe }, some out⟩
  | _, _ => ⟨0, v, out_video⟩

/-- Result of `try_receive_audio`. -/
structure RecvAudio (E : Engine) where
  ret : Int
  v : VNEVideo E
  out_audio : Option VNEAudioFrame

/-- Source `try_receive_audio`.  `out_audio = none` is a null output slot.
The result is `none` where the source hands a null `v->swr` to the resampler,
which no handle returned by `vne_video_open` does. -/
def try_receive_audio {E : Engine} (v : VNEVideo E) (out_audio : Option VNEAudioFrame) :
    Option (RecvAudio E) :=
  match v.adec, out_audio with
  | some dec0, some _ =>
    let r := E.avcodec_receive_frame dec0
    let ret := r.1
    let dec := r.2.2
    let v := { v with adec := some dec, aframe := r.2.1 }
    if ret = AVERROR_EAGAIN ∨ ret = AVERROR_EOF then some ⟨0, v, out_audio⟩
    else if ret < 0 then some ⟨-1, set_ff_error v ret "audio receive_frame failed", out_audio⟩
    else
      let channels := if E.ctx_nb_channels dec > 0 then E.ctx_nb_channels dec else E.ctx_channels dec
      let samples := v.aframe.nb_samples
      let unref := fun (w : VNEVideo E) => { w with aframe := E.av_frame_unref w.aframe }
      if samples ≤ 0 ∨ channels ≤ 0 then
        some ⟨-1, unref (set_error v "invalid audio frame: samples or channels <= 0"), out_audio⟩
      else
        match v.swr with
        | none => none
        | some swr =>
          let delay := E.swr_get_delay swr (E.ctx_sample_rate dec)
          let max0 := wrap32 (E.av_rescale_rnd_up (wrap64 (delay + samples))
            (E.ctx_sample_rate dec) (E.ctx_sample_rate dec))
          let max_out_samples := if max0 ≤ 0 then samples else max0
          let buf_size := E.av_samples_get_buffer_size channels max_out_samples
          if buf_size < 0 then
            some ⟨-1, unref (set_ff_error v buf_size "failed to calculate audio buffer size"),
              out_audio⟩
          else
            let out_buf := E.av_malloc (toU64 buf_size)
            if out_buf = 0 then
              some ⟨-1, unref (set_error v "failed to allocate audio output buffer"), out_audio⟩
            else
              let c := E.swr_convert swr max_out_samples v.aframe samples
              let converted := c.1
              let v := { v with swr := some c.2 }
              if converted < 0 then
                some ⟨-1, unref (set_ff_error v converted "swr_convert failed"), out_audio⟩
              else if converted = 0 then
                some ⟨-1, unref (set_error v "swr_convert returned 0 samples"), out_audio⟩
              else
                let actual_size := E.av_samples_get_buffer_size channels converted
                if actual_size < 0 then
                  some ⟨-1,
                    unref (set_ff_error v actual_size "failed to calculate converted buffer size"),
                    out_audio⟩
                else
                  let best_pts := v.aframe.best_effort_timestamp
                  let out : VNEAudioFrame :=
                    { sample_rate := E.ctx_sample_rate dec, channels := channels,
                      nb_samples := converted, bytes_per_sample := 2, data := out_buf,
                      pts_ms := pts_to_ms E v.astream best_pts }
                  some ⟨1, unref v, some out⟩
  | _, _ => some ⟨0, v, out_audio⟩

/-! ## Frame scheduler -/

/-- Result of `vne_video_next`: the returned frame type, the handle
afterwards and the content of the two output slots afterwards. -/
structure NextResult (E : Engine) where
  ret : VNEFrameType
  v : Option (VNEVideo E)
  out_video : Option VNEVideoFrame
  out_audio : Option VNEAudioFrame

/-- Lines 744-762 of `vne_video_next`: the demux read of one loop iteration on
a handle whose end-of-stream flag is clear.  The result is `Sum.inl` of the
handle with which the loop goes round again, or `Sum.inr` of the handle with
which the call returns `VNE_FRAME_ERROR`; it is `none` where the source
dereferences a null `v->fmt`, or a null `v->vdec` for a packet of the video
stream. -/
def next_pull {E : Engine} (v : VNEVideo E) : Option (VNEVideo E ⊕ VNEVideo E) :=
  match v.fmt with
  | none => none
  | some d =>
    let r := E.av_read_frame d
    let ret := r.1
    let v := { v with fmt := some r.2.2, pkt := r.2.1 }
    if ret = AVERROR_EOF then
      let v := { v with eof := 1 }
      let v := match v.vdec with
        | some dec => { v with vdec := some (E.avcodec_send_packet dec none).2 }
        | none => v
      let v := match v.adec with
        | some dec => { v with adec := some (E.avcodec_send_packet dec none).2 }
        | none => v
      some (Sum.inl v)
    else if ret < 0 then some (Sum.inr (set_ff_error v ret "av_read_frame failed"))
    else
      let routed : Option (VNEVideo E) :=
        if v.pkt.stream_index = v.vstream_index then
          match v.vdec with
          | some dec => some { v with vdec := some (E.avcodec_send_packet dec (some v.pkt)).2 }
          | none => none
        else if v.pkt.stream_index = v.astream_index then
          match v.adec with
          | some dec => some { v with adec := some (E.avcodec_send_packet dec (some v.pkt)).2 }
          | none => some v
        else some v
      match routed with
      | none => none
      | some v => some (Sum.inl { v with pkt := E.av_packet_unref v.pkt })

/-- Source `vne_video_next`.  The `for (;;)` loop is run for at most `fuel`
iterations; the result is `none` when the loop has not returned by then, or
where the source dereferences a null pointer (see `try_receive_audio`,
`next_pull`). -/
def vne_video_next {E : Engine} (fuel : Nat) (v : Option (VNEVideo E))
    (out_video : Option VNEVideoFrame) (out_audio : Option VNEAudioFrame) :
    Option (NextResult E) :=
  match v with
  | none => some ⟨VNE_FRAME_ERROR, none, out_video, out_audio⟩
  | some v =>
    match fuel with
    | 0 => none
    | fuel + 1 =>
      let rv := try_receive_video v out_video
      if rv.ret = 1 then some ⟨VNE_FRAME_VIDEO, some rv.v, rv.out_video, out_audio⟩
      else if rv.ret < 0 then some ⟨VNE_FRAME_ERROR, some rv.v, rv.out_video, out_audio⟩
      else
        match try_receive_audio rv.v out_audio with
        | none => none
        | some ra =>
          if ra.ret = 1 then some ⟨ VNE_FRAME_AUDIO, some ra.v, rv.out_video, ra.out_audio⟩
          else if ra.ret < 0 then some ⟨VNE_FRAME_ERROR, some ra.v, rv.out_video, ra.out_audio⟩
          else if ra.v.eof ≠ 0 then some ⟨VNE_FRAME_EOF, some ra.v, rv.out_video, ra.out_audio⟩
          else
            match next_pull ra.v with
            | none => none
            | some (Sum.inr w) => some ⟨VNE_FRAME_ERROR, some w, rv.out_video, ra.out_audio⟩
            | some (Sum.inl w) => vne_video_next fuel (some w) rv.out_video ra.out_audio

/-! ## Opening a file -/

/-- The handle right after `calloc` and the two index assignments at the top
of `vne_video_open`; the scratch objects get their content when they are
first written. -/
def fresh_handle (E : Engine) : VNEVideo E :=
  { fmt := none, vdec := none, adec := none, vstream := none, astream := none,
    vstream_index := -1, astream_index := -1,
    vframe := ⟨0, 0, 0, 0, 0, 0⟩, aframe := ⟨0, 0, 0, 0, 0, 0⟩, pkt := ⟨0, 0⟩,
    sws := false, swr := none, sws_w := 0, sws_h := 0, sws_fmt := 0, out_sample_fmt := 0,
    avio := false, io := none, eof := 0, last_error := "" }

/-- Source `init_video_decoder`. -/
def init_video_decoder {E : Engine} (v : VNEVideo E) (d : E.D) : Int × VNEVideo E :=
  let idx := E.av_find_best_stream d AVMEDIA_TYPE_VIDEO
  if idx < 0 then (-1, set_error v "no video stream found")
  else
    let v := { v with vstream_index := idx, vstream := some (E.stream_time_base d idx) }
    let codec_id := E.stream_codec_id d idx
    if E.avcodec_find_decoder codec_id = false then (-1, set_error v "video decoder not found")
    else
      match E.avcodec_alloc_context3 codec_id with
      | none => (-1, set_error v "failed to alloc video codec context")
      | some c0 =>
        let p := E.avcodec_parameters_to_context c0 d idx
        let v := { v with vdec := some p.2 }
        if p.1 < 0 then (-1, set_error v "failed to copy video codec parameters")
        else
          let o := E.avcodec_open2 p.2
          let v := { v with vdec := some o.2 }
          if o.1 < 0 then (-1, set_error v "failed to open video decoder")
          else
            let dec := o.2
            let ctx := E.sws_getContext (E.ctx_width dec) (E.ctx_height dec) (E.ctx_pix_fmt dec)
            let v := { v with sws := ctx }
            if ctx = false then (-1, set_error v "failed to create sws context")
            else
              (0, { v with sws_w := E.ctx_width dec, sws_h := E.ctx_height dec,
                           sws_fmt := E.ctx_pix_fmt dec })

/-- Source `init_audio_decoder`. -/
def init_audio_decoder {E : Engine} (v : VNEVideo E) (d : E.D) : Int × VNEVideo E :=
  let idx := E.av_find_best_stream d AVMEDIA_TYPE_AUDIO
  if idx < 0 then (0, { v with astream_index := -1, astream := none })
  else
    let v := { v with astream_index := idx, astream := some (E.stream_time_base d idx) }
    let codec_id := E.stream_codec_id d idx
    if E.avcodec_find_decoder codec_id = false then
      (-1, set_error v ("audio decoder not found for codec_id " ++ toString codec_id))
    else
      match E.avcodec_alloc_context3 codec_id with
      | none => (-1, set_error v "failed to alloc audio codec context (out of memory)")
      | some c0 =>
        let p := E.avcodec_parameters_to_context c0 d idx
        let v := { v with adec := some p.2 }
        if p.1 < 0 then (-1, set_ff_error v p.1 "failed to copy audio codec parameters")
        else
          let o := E.avcodec_open2 p.2
          let v := { v with adec := some o.2 }
          if o.1 < 0 then (-1, set_ff_error v o.1 "failed to open audio decoder")
          else
            let dec := o.2
            let ch :=
              if E.ctx_nb_channels dec > 0 then E.ctx_nb_channels dec
              else if E.ctx_channels dec > 0 then E.ctx_channels dec else 2
            let a := E.swr_alloc_set_opts2 ch (E.ctx_sample_rate dec) (E.ctx_sample_fmt dec)
            let v := { v with swr := a.2 }
            if a.1 < 0 then (-1, set_ff_error v a.1 "failed to allocate swr context")
            else
              match a.2 with
              | none => (-1, set_error v "swr context is NULL after allocation")
              | some r0 =>
                let i := E.swr_init r0
                let v := { v with swr := some i.2 }
                if i.1 < 0 then (-1, set_ff_error v i.1 "failed to init swr context")
                else
                  (0, { v with out_sample_fmt := E.av_opt_get_sample_fmt i.2 AV_SAMPLE_FMT_S16 })

/-- Lines 429-475 of `vne_video_open`: stream analysis, decoder set-up,
scratch allocation and the fill of `*out_info`, once the demuxer `d` is open.
`none` as handle is the `NULL` return (the handle has been closed). -/
def open_finish {E : Engine} (v : VNEVideo E) (d : E.D) (out_info : Option VNEVideoInfo) :
    Option (VNEVideo E) × Option VNEVideoInfo :=
  let f := E.avformat_find_stream_info d
  let d := f.2
  let v := { v with fmt := some d }
  if f.1 < 0 then (none, out_info)
  else
    let iv := init_video_decoder v d
    if iv.1 < 0 then (none, out_info)
    else
      let ia := init_audio_decoder iv.2 d
      if ia.1 < 0 then (none, out_info)
      else
        let v := ia.2
        if E.av_frame_alloc 0 = false ∨ E.av_frame_alloc 1 = false ∨ E.av_packet_alloc = false then
          (none, out_info)
        else
          match out_info, v.vdec with
          | some _, some vdec =>
            let fr := E.av_guess_frame_rate d v.vstream_index
            let info : VNEVideoInfo :=
              { width := E.ctx_width vdec, height := E.ctx_height vdec,
                fps_num := fr.num, fps_den := fr.den,
                duration_ms := if E.duration d > 0 then E.duration d / 1000 else 0,
                has_audio := if v.adec.isSome then 1 else 0,
                sample_rate := match v.adec with
                  | some a => E.ctx_sample_rate a
                  | none => 0,
                channels := match v.adec with
                  | some a => if E.ctx_nb_channels a > 0 then E.ctx_nb_channels a
                              else E.ctx_channels a
                  | none => 0 }
            (some v, some info)
          | _, _ => (some v, out_info)

/-- The three ways lines 356-384 of `vne_video_open` can go on. -/
inductive ByteSource where
  /-- The probe result is negative: "invalid .video header", `NULL` is returned. -/
  | invalid
  /-- The adapter could not be allocated: "out of memory for io", `NULL` is returned. -/
  | no_memory
  /-- The probe result is `1`: the demuxer is opened on this freshly made adapter. -/
  | adapter (io : VNEVideoIO)
  /-- Otherwise: the file is closed and the demuxer opens the path itself. -/
  | generic
  deriving DecidableEq, Repr

/-- Lines 356-384 of `vne_video_open`: `fopen`, the probe, and the set-up of
the adapter. -/
def open_source (E : Engine) (path : String) : ByteSource :=
  match E.fopen path with
  | some fp =>
    let pr := vne_video_probe_header fp 0
    if pr.ret < 0 then ByteSource.invalid
    else if pr.ret = 1 then
      if E.calloc_io = false then ByteSource.no_memory
      else ByteSource.adapter
        { fp := some pr.fp, data_offset := 16, data_size := pr.out_size, pos := 0 }
    else ByteSource.generic
  | none => ByteSource.generic

/-- Lines 386-418 of `vne_video_open`, then the common tail: the demuxer is
opened with custom I/O on the adapter `io`. -/
def open_custom_io {E : Engine} (v : VNEVideo E) (io : VNEVideoIO)
    (out_info : Option VNEVideoInfo) : Option (VNEVideo E) × Option VNEVideoInfo :=
  let v := { v with io := some io }
  if E.av_malloc (64 * 1024) = 0 then (none, out_info)
  else if E.avio_alloc_context io = false then (none, out_info)
  else
    let v := { v with avio := true }
    if E.avformat_alloc_context = false then (none, out_info)
    else
      match E.avformat_open_input_io io with
      | Except.error _ => (none, out_info)
      | Except.ok d => open_finish v d out_info

/-- Lines 420-427 of `vne_video_open`, then the common tail: generic
container detection on the path. -/
def open_generic {E : Engine} (v : VNEVideo E) (path : String)
    (out_info : Option VNEVideoInfo) : Option (VNEVideo E) × Option VNEVideoInfo :=
  match E.avformat_open_input_path path with
  | Except.error _ => (none, out_info)
  | Except.ok d => open_finish v d out_info

/-- Source `vne_video_open`: the returned handle (`none` is `NULL`) and the
content of `*out_info` afterwards.  `path = none` is a null path.  The library
calls `avformat_open_input` report failure (`ret < 0`, no context) as
`Except.error ret`. -/
def vne_video_open (E : Engine) (path : Option String) (out_info : Option VNEVideoInfo) :
    Option (VNEVideo E) × Option VNEVideoInfo :=
  match path with
  | none => (none, out_info)
  | some path =>
    if E.calloc_handle = false then (none, out_info)
    else
      let v := fresh_handle E
      match open_source E path with
      | ByteSource.invalid => (none, out_info)
      | ByteSource.no_memory => (none, out_info)
      | ByteSource.adapter io => open_custom_io v io out_info
      | ByteSource.generic => open_generic v path out_info

/-! ## Releasing frames -/

/-- Library `av_free(ptr)` as the caller sees it: the address joins the
addresses handed back to the allocator, in call order. -/
def av_free (released : List Nat) (ptr : Nat) : List Nat := released ++ [ptr]

/-- Source `vne_video_free_video_frame`: the frame afterwards (`none` is a
null frame pointer) and the addresses handed to `av_free` so far. -/
def vne_video_free_video_frame (f : Option VNEVideoFrame) (released : List Nat) :
    Option VNEVideoFrame × List Nat :=
  match f with
  | none => (none, released)
  | some f =>
    let released := if f.data ≠ 0 then av_free released f.data else released
    (some { f with data := 0, width := 0, height := 0, stride := 0, pts_ms := 0 }, released)

/-- Source `vne_video_free_audio_frame`: the frame afterwards (`none` is a
null frame pointer) and the addresses handed to `av_free` so far. -/
def vne_video_free_audio_frame (f : Option VNEAudioFrame) (released : List Nat) :
    Option VNEAudioFrame × List Nat :=
  match f with
  | none => (none, released)
  | some f =>
    let released := if f.data ≠ 0 then av_free released f.data else released
    (some { f with data := 0, sample_rate := 0, channels := 0, nb_samples := 0,
                   bytes_per_sample := 0, pts_ms := 0 }, released)

/-! ## Seeking -/

/-- Little-endian value of a byte string: the first byte is the least
significant one. -/
def leValue : List Byte → Nat
  | [] => 0
  | b :: bs => b.val + 256 * leValue bs

/-- The little-endian 32-bit field at bytes 4..7 of a file. -/
def version_field (file : List Byte) : Nat := leValue ((file.drop 4).take 4)

/-- The little-endian 64-bit field at bytes 8..15 of a file. -/
def size_field (file : List Byte) : Nat := leValue ((file.drop 8).take 8)

/-- The payload size a well-formed header stands for: the declared size, or
the rest of the file when the declared size is `0`. -/
def payload_size (file : List Byte) : Int :=
  if size_field file = 0 then (file.length : Int) - 16 else (size_field file : Int)

/-- The position a seek with `whence` in start / current / end aims at: the
offset, `pos + offset` or `data_size + offset`, the sums taken modulo
`2^64`. -/
def seek_target (io : VNEVideoIO) (offset whence : Int) : Int :=
  if whence = SEEK_SET then offset
  else if whence = SEEK_CUR then wrap64 (io.pos + offset)
  else wrap64 (io.data_size + offset)

/-- The `k` low-order bytes of `n`, least significant first. -/
def leBytes : Nat → Nat → List Byte
  | 0, _ => []
  | k + 1, n => (⟨n % 256, Nat.mod_lt n (by decide)⟩ : Byte) :: leBytes k (n / 256)

/-- The wrapper of the round trip: the 16-byte header (magic, version 1,
size = length of the payload), the payload `P`, and optional trailing bytes. -/
def wrap_container (P extra : List Byte) : List Byte :=
  MAGIC ++ leBytes 4 1 ++ leBytes 8 P.length ++ P ++ extra

/-- Reading an adapter with the successive buffer sizes `sizes`, as a
demuxer does, until a read delivers no bytes: the bytes delivered, in order,
and the return value of the read that ended the loop (`none` when the sizes
ran out first). -/
def read_seq (io : Option VNEVideoIO) : List Int → List Byte × Option Int
  | [] => ([], none)
  | n :: ns =>
    let r := vne_video_read io n
    if r.ret ≤ 0 then ([], some r.ret)
    else ((r.buf ++ (read_seq r.io ns).1), (read_seq r.io ns).2)

/-- Sum of a list of buffer sizes, as a natural number. -/
def total_size (sizes : List Int) : Nat := (sizes.map Int.toNat).sum

/-- The state of a decoder after `n` further `avcodec_receive_frame` calls
and nothing else. -/
def drained_state (E : Engine) (c : E.C) : Nat → E.C
  | 0 => c
  | n + 1 => (E.avcodec_receive_frame (drained_state E c n)).2.2

/-- A decoder (if there is one) keeps reporting no-output: every further
`avcodec_receive_frame` on it returns `AVERROR(EAGAIN)` or `AVERROR_EOF`. -/
def keeps_no_output (E : Engine) (c : Option E.C) : Prop :=
  ∀ c0, c = some c0 → ∀ n,
    (E.avcodec_receive_frame (drained_state E c0 n)).1 = AVERROR_EAGAIN
      ∨ (E.avcodec_receive_frame (drained_state E c0 n)).1 = AVERROR_EOF

/-- Successive calls of `vne_video_next` on one handle with no seek in
between, one call per pair of output slots: the results in order, or `none`
when a call has no result. -/
def next_calls {E : Engine} (fuel : Nat) :
    VNEVideo E → List (Option VNEVideoFrame × Option VNEAudioFrame) → Option (List (NextResult E))
  | _, [] => some []
  | v, s :: ss =>
    match vne_video_next fuel (some v) s.1 s.2 with
    | none => none
    | some r =>
      match r.v with
      | none => none
      | some w => (next_calls fuel w ss).map (fun rs => r :: rs)

/-- The position invariant of an adapter: `0 ≤ pos ≤ data_size`, with
`data_size` in the range of `int64_t`. -/
def adapter_inv (io : VNEVideoIO) : Prop :=
  0 ≤ io.pos ∧ io.pos ≤ io.data_size ∧ io.data_size < 2 ^ 63

/-! ## Concrete inputs -/

/-- A container file: magic, version 1, declared size 3, payload `1 2 3`,
and one trailing byte. -/
def goodFile : FILE :=
  ⟨[86, 73, 68, 48, 1, 0, 0, 0, 3, 0, 0, 0, 0, 0, 0, 0, 1, 2, 3, 9], 0⟩

/-- A file with the magic and the unsupported version 2. -/
def badFile : FILE :=
  ⟨[86, 73, 68, 48, 2, 0, 0, 0, 0, 0, 0, 0, 0, 0, 0, 0, 1, 2, 3], 0⟩

/-- A file that does not start with the magic. -/
def plainFile : FILE :=
  ⟨[26, 69, 223, 163, 1, 0, 0, 0, 0, 0, 0, 0, 0, 0, 0, 0, 1, 2, 3], 0⟩

/-- An adapter on a 26-byte file with a 10-byte payload, positioned at 5. -/
def midAdapter : VNEVideoIO :=
  { fp := some ⟨[86, 73, 68, 48, 1, 0, 0, 0, 10, 0, 0, 0, 0, 0, 0, 0,
                 10, 11, 12, 13, 14, 15, 16, 17, 18, 19], 16⟩,
    data_offset := 16, data_size := 10, pos := 5 }

/-- A scripted engine.  A demuxer is the list of the `av_read_frame` results
still to come, a decoder the list of the `avcodec_receive_frame` results still
to come (a submitted packet appends one frame that carries the packet's
payload number), every allocation succeeds, and a frame with payload number
`0` can be neither scaled nor resampled. -/
def demoEngine : Engine where
  D := List (Int × AVPacket)
  C := List (Int × AVFrame)
  R := Unit
  calloc_handle := true
  calloc_io := true
  fopen := fun path =>
    if path = "good.video" then some goodFile
    else if path = "bad.video" then some badFile
    else if path = "plain.webm" then some plainFile
    else none
  av_malloc := fun n => n + 4096
  avio_alloc_context := fun _ => true
  avformat_alloc_context := true
  avformat_open_input_io := fun _ => Except.ok [(0, ⟨0, 7⟩)]
  avformat_open_input_path := fun _ => Except.ok [(0, ⟨0, 7⟩)]
  avformat_find_stream_info := fun d => (0, d)
  av_find_best_stream := fun _ t => if t = AVMEDIA_TYPE_VIDEO then 0 else -1
  stream_time_base := fun _ _ => ⟨1, 1000⟩
  stream_codec_id := fun _ _ => 139
  av_guess_frame_rate := fun _ _ => ⟨30, 1⟩
  duration := fun _ => 2000000
  av_read_frame := fun d =>
    match d with
    | [] => (AVERROR_EOF, ⟨0, 0⟩, [])
    | r :: rest => (r.1, r.2, rest)
  av_seek_frame := fun d _ _ _ => (0, d)
  avcodec_find_decoder := fun _ => true
  avcodec_alloc_context3 := fun _ => some []
  avcodec_parameters_to_context := fun c _ _ => (0, c)
  avcodec_open2 := fun c => (0, c)
  avcodec_receive_frame := fun c =>
    match c with
    | [] => (AVERROR_EAGAIN, ⟨0, 0, 0, 0, 0, 0⟩, [])
    | r :: rest => (r.1, r.2, rest)
  avcodec_send_packet := fun c p =>
    match p with
    | none => (0, c)
    | some pk => (0, c ++ [(0, ⟨4, 2, 0, 8, 40, pk.data⟩)])
  avcodec_flush_buffers := fun _ => []
  ctx_width := fun _ => 4
  ctx_height := fun _ => 2
  ctx_pix_fmt := fun _ => 0
  ctx_sample_rate := fun _ => 48000
  ctx_sample_fmt := fun _ => 8
  ctx_nb_channels := fun _ => 2
  ctx_channels := fun _ => 2
  av_frame_alloc := fun _ => true
  av_packet_alloc := true
  av_frame_unref := fun _ => ⟨0, 0, -1, 0, AV_NOPTS_VALUE, 0⟩
  av_packet_unref := fun _ => ⟨0, 0⟩
  sws_getContext := fun _ _ _ => true
  av_image_alloc := fun w h => (w * h * 4, 8192, w * 4)
  sws_scale := fun f h => if f.data = 0 then 0 else h
  swr_alloc_set_opts2 := fun _ _ _ => (0, some ())
  swr_init := fun r => (0, r)
  av_opt_get_sample_fmt := fun _ x => x
  swr_get_delay := fun _ _ => 0
  swr_convert := fun r _ f n => (if f.data = 0 then 0 else n, r)
  av_rescale_q := fun x _ _ => x
  av_rescale_rnd_up := fun a _ _ => a
  av_samples_get_buffer_size := fun ch n => ch * n * 2
  av_strerror := fun _ => "error"

/-- A handle of the scripted engine as `vne_video_open` leaves it: video
stream 0 with decoder queue `vq`, audio stream 1 with decoder queue `aq` when
there is one, demuxer script `dq`. -/
def demoHandle (vq : List (Int × AVFrame)) (aq : Option (List (Int × AVFrame)))
    (dq : List (Int × AVPacket)) (eof : Int) : VNEVideo demoEngine :=
  { fmt := some dq, vdec := some vq, adec := aq,
    vstream := some ⟨1, 1000⟩, astream := aq.map (fun _ => ⟨1, 1000⟩),
    vstream_index := 0, astream_index := if aq.isSome then 1 else -1,
    vframe := ⟨0, 0, 0, 0, 0, 0⟩, aframe := ⟨0, 0, 0, 0, 0, 0⟩, pkt := ⟨0, 0⟩,
    sws := true, swr := aq.map (fun _ => ()), sws_w := 4, sws_h := 2, sws_fmt := 0,
    out_sample_fmt := 1, avio := false, io := none, eof := eof, last_error := "" }

/-- An empty video output slot. -/
def slotV : VNEVideoFrame := ⟨0, 0, 0, 0, 0⟩

/-- An empty audio output slot. -/
def slotA : VNEAudioFrame := ⟨0, 0, 0, 0, 0, 0⟩

/-- A scripted engine like `demoEngine`, except that a decoder carries a busy
flag (while it is set, a submit is rejected with `AVERROR(EAGAIN)` and only
clears the flag: a transient rejection) and that a seek to a negative
timestamp is rejected. -/
def busyEngine : Engine where
  D := List (Int × AVPacket)
  C := Bool × List (Int × AVFrame)
  R := Unit
  calloc_handle := true
  calloc_io := true
  fopen := fun _ => none
  av_malloc := fun n => n + 4096
  avio_alloc_context := fun _ => true
  avformat_alloc_context := true
  avformat_open_input_io := fun _ => Except.ok []
  avformat_open_input_path := fun _ => Except.ok []
  avformat_find_stream_info := fun d => (0, d)
  av_find_best_stream := fun _ t => if t = AVMEDIA_TYPE_VIDEO then 0 else -1
  stream_time_base := fun _ _ => ⟨1, 1000⟩
  stream_codec_id := fun _ _ => 139
  av_guess_frame_rate := fun _ _ => ⟨30, 1⟩
  duration := fun _ => 2000000
  av_read_frame := fun d =>
    match d with
    | [] => (AVERROR_EOF, ⟨0, 0⟩, [])
    | r :: rest => (r.1, r.2, rest)
  av_seek_frame := fun d _ ts _ => if ts < 0 then (-22, d) else (0, d)
  avcodec_find_decoder := fun _ => true
  avcodec_alloc_context3 := fun _ => some (false, [])
  avcodec_parameters_to_context := fun c _ _ => (0, c)
  avcodec_open2 := fun c => (0, c)
  avcodec_receive_frame := fun c =>
    match c.2 with
    | [] => (AVERROR_EAGAIN, ⟨0, 0, 0, 0, 0, 0⟩, c)
    | r :: rest => (r.1, r.2, (c.1, rest))
  avcodec_send_packet := fun c p =>
    match p with
    | none => (0, c)
    | some pk =>
      if c.1 then (AVERROR_EAGAIN, (false, c.2))
      else (0, (false, c.2 ++ [(0, ⟨4, 2, 0, 8, 40, pk.data⟩)]))
  avcodec_flush_buffers := fun _ => (false, [])
  ctx_width := fun _ => 4
  ctx_height := fun _ => 2
  ctx_pix_fmt := fun _ => 0
  ctx_sample_rate := fun _ => 48000
  ctx_sample_fmt := fun _ => 8
  ctx_nb_channels := fun _ => 2
  ctx_channels := fun _ => 2
  av_frame_alloc := fun _ => true
  av_packet_alloc := true
  av_frame_unref := fun _ => ⟨0, 0, -1, 0, AV_NOPTS_VALUE, 0⟩
  av_packet_unref := fun _ => ⟨0, 0⟩
  sws_getContext := fun _ _ _ => true
  av_image_alloc := fun w h => (w * h * 4, 8192, w * 4)
  sws_scale := fun f h => if f.data = 0 then 0 else h
  swr_alloc_set_opts2 := fun _ _ _ => (0, some ())
  swr_init := fun r => (0, r)
  av_opt_get_sample_fmt := fun _ x => x
  swr_get_delay := fun _ _ => 0
  swr_convert := fun r _ f n => (if f.data = 0 then 0 else n, r)
  av_rescale_q := fun x _ _ => x
  av_rescale_rnd_up := fun a _ _ => a
  av_samples_get_buffer_size := fun ch n => ch * n * 2
  av_strerror := fun _ => "error"

/-- A handle of `busyEngine` without audio: video stream 0 with the decoder
state `vd`, demuxer script `dq`. -/
def busyHandle (vd : Bool × List (Int × AVFrame)) (dq : List (Int × AVPacket)) (eof : Int) :
    VNEVideo busyEngine :=
  { fmt := some dq, vdec := some vd, adec := none,
    vstream := some ⟨1, 1000⟩, astream := none,
    vstream_index := 0, astream_index := -1,
    vframe := ⟨0, 0, 0, 0, 0, 0⟩, aframe := ⟨0, 0, 0, 0, 0, 0⟩, pkt := ⟨0, 0⟩,
    sws := true, swr := none, sws_w := 4, sws_h := 2, sws_fmt := 0,
    out_sample_fmt := 1, avio := false, io := none, eof := eof, last_error := "" }

/-! ## Lemmas on the raw file layer and the header fields -/

theorem or_shl (a b k : Nat) (h : a < 2 ^ k) : a ||| (b <<< k) = a + b * 2 ^ k := by
  rw [Nat.shiftLeft_eq, Nat.lor_comm, Nat.mul_comm, ← Nat.mul_add_lt_is_or h]
  omega

theorem shl_mod (b k w : Nat) (h : b * 2 ^ k < 2 ^ w) : (b <<< k) % 2 ^ w = b <<< k := by
  apply Nat.mod_eq_of_lt
  rw [Nat.shiftLeft_eq]
  exact h

theorem le32 (a b c d : Nat) (ha : a < 256) (hb : b < 256) (hc : c < 256) (hd : d < 256) :
    (a ||| ((b <<< 8) % 2 ^ 32) ||| ((c <<< 16) % 2 ^ 32) ||| ((d <<< 24) % 2 ^ 32)) % 2 ^ 32
      = a + 256 * (b + 256 * (c + 256 * (d + 256 * 0))) := by
  rw [shl_mod b 8 32 (by omega), shl_mod c 16 32 (by omega), shl_mod d 24 32 (by omega),
    or_shl a b 8 (by omega), or_shl _ c 16 (by omega), or_shl _ d 24 (by omega)]
  omega

theorem le64 (a b c d e f g h : Nat) (ha : a < 256) (hb : b < 256) (hc : c < 256)
    (hd : d < 256) (he : e < 256) (hf : f < 256) (hg : g < 256) (hh : h < 256) :
    (a ||| ((b <<< 8) % 2 ^ 64) ||| ((c <<< 16) % 2 ^ 64) ||| ((d <<< 24) % 2 ^ 64)
      ||| ((e <<< 32) % 2 ^ 64) ||| ((f <<< 40) % 2 ^ 64) ||| ((g <<< 48) % 2 ^ 64)
      ||| ((h <<< 56) % 2 ^ 64)) % 2 ^ 64
      = a + 256 * (b + 256 * (c + 256 * (d + 256 * (e + 256 * (f + 256 * (g + 256 *
          (h + 256 * 0))))))) := by
  rw [shl_mod b 8 64 (by omega), shl_mod c 16 64 (by omega), shl_mod d 24 64 (by omega),
    shl_mod e 32 64 (by omega), shl_mod f 40 64 (by omega), shl_mod g 48 64 (by omega),
    shl_mod h 56 64 (by omega),
    or_shl a b 8 (by omega), or_shl _ c 16 (by omega), or_shl _ d 24 (by omega),
    or_shl _ e 32 (by omega), or_shl _ f 40 (by omega), or_shl _ g 48 (by omega),
    or_shl _ h 56 (by omega)]
  omega

/-- A list of at least sixteen bytes starts with sixteen bytes. -/
theorem sixteen_split (l : List Byte) (h : 16 ≤ l.length) :
    ∃ b0 b1 b2 b3 b4 b5 b6 b7 b8 b9 b10 b11 b12 b13 b14 b15 rest,
      l = b0 :: b1 :: b2 :: b3 :: b4 :: b5 :: b6 :: b7 :: b8 :: b9 :: b10 :: b11 :: b12
        :: b13 :: b14 :: b15 :: rest := by
  rcases l with _ | ⟨b0, l⟩; · simp at h
  rcases l with _ | ⟨b1, l⟩; · simp at h
  rcases l with _ | ⟨b2, l⟩; · simp at h
  rcases l with _ | ⟨b3, l⟩; · simp at h
  rcases l with _ | ⟨b4, l⟩; · simp at h
  rcases l with _ | ⟨b5, l⟩; · simp at h
  rcases l with _ | ⟨b6, l⟩; · simp at h
  rcases l with _ | ⟨b7, l⟩; · simp at h
  rcases l with _ | ⟨b8, l⟩; · simp at h
  rcases l with _ | ⟨b9, l⟩; · simp at h
  rcases l with _ | ⟨b10, l⟩; · simp at h
  rcases l with _ | ⟨b11, l⟩; · simp at h
  rcases l with _ | ⟨b12, l⟩; · simp at h
  rcases l with _ | ⟨b13, l⟩; · simp at h
  rcases l with _ | ⟨b14, l⟩; · simp at h
  rcases l with _ | ⟨b15, l⟩; · simp at h
  exact ⟨b0, b1, b2, b3, b4, b5, b6, b7, b8, b9, b10, b11, b12, b13, b14, b15, l, rfl⟩

/-- The version expression of the probe is the little-endian value of bytes
4..7. -/
theorem probe_version_eq (file : List Byte) (h : 16 ≤ file.length) :
    probe_version (file.take 16) = version_field file := by
  obtain ⟨b0, b1, b2, b3, b4, b5, b6, b7, b8, b9, b10, b11, b12, b13, b14, b15, rest, rfl⟩ :=
    sixteen_split file h
  simp only [probe_version, version_field, hdrAt, List.take, List.drop, List.getD_cons_succ,
    List.getD_cons_zero, leValue]
  exact le32 _ _ _ _ b4.isLt b5.isLt b6.isLt b7.isLt

/-- The size expression of the probe is the little-endian value of bytes
8..15. -/
theorem probe_size_eq (file : List Byte) (h : 16 ≤ file.length) :
    probe_size (file.take 16) = size_field file := by
  obtain ⟨b0, b1, b2, b3, b4, b5, b6, b7, b8, b9, b10, b11, b12, b13, b14, b15, rest, rfl⟩ :=
    sixteen_split file h
  simp only [probe_size, size_field, hdrAt, List.take, List.drop, List.getD_cons_succ,
    List.getD_cons_zero, leValue]
  exact le64 _ _ _ _ _ _ _ _ b8.isLt b9.isLt b10.isLt b11.isLt b12.isLt b13.isLt b14.isLt
    b15.isLt

theorem wrap64_id (x : Int) (h0 : -(2 ^ 63) ≤ x) (h1 : x < 2 ^ 63) : wrap64 x = x := by
  unfold wrap64
  omega

theorem wrap32_id (x : Int) (h0 : -(2 ^ 31) ≤ x) (h1 : x < 2 ^ 31) : wrap32 x = x := by
  unfold wrap32
  omega

theorem toU64_id (x : Int) (h0 : 0 ≤ x) (h1 : x < 2 ^ 64) : toU64 x = x.toNat := by
  unfold toU64
  rw [Int.emod_eq_of_lt h0 h1]

theorem seek_set_ok (fp : FILE) (t : Int) (h0 : 0 ≤ t) (h1 : t < 2 ^ 63) :
    vne_file_seek fp t SEEK_SET = (0, ⟨fp.bytes, t.toNat⟩) := by
  simp only [vne_file_seek, SEEK_SET, if_true, zero_add]
  rw [if_pos ⟨h0, h1⟩]

theorem file_size_ok (bytes : List Byte) (c : Nat) (hc : c < 2 ^ 63)
    (hmax : bytes.length < 2 ^ 63) :
    vne_file_size ⟨bytes, c⟩ = ((bytes.length : Int), ⟨bytes, c⟩) := by
  have h1 : vne_file_tell ⟨bytes, c⟩ = (c : Int) := by
    unfold vne_file_tell; rw [if_pos hc]
  have h2 : vne_file_seek ⟨bytes, c⟩ 0 SEEK_END = (0, ⟨bytes, bytes.length⟩) := by
    simp only [vne_file_seek, SEEK_SET, SEEK_CUR, SEEK_END]
    norm_num
    omega
  have h3 : vne_file_tell ⟨bytes, bytes.length⟩ = (bytes.length : Int) := by
    unfold vne_file_tell; rw [if_pos hmax]
  have h4 : vne_file_seek ⟨bytes, bytes.length⟩ (c : Int) SEEK_SET = (0, ⟨bytes, c⟩) := by
    rw [seek_set_ok _ _ (by omega) (by exact_mod_cast hc)]
    simp
  simp [vne_file_size, h1, h2, h3, h4]

/-- The probe on a file of at least sixteen bytes that starts with the magic,
in terms of the two little-endian header fields. -/
theorem probe_eval (fp : FILE) (out : Int) (hlen : 16 ≤ fp.bytes.length)
    (hmax : fp.bytes.length < 2 ^ 63) (hmagic : fp.bytes.take 4 = MAGIC) :
    vne_video_probe_header fp out =
      if version_field fp.bytes ≠ 1 then ⟨-1, out, ⟨fp.bytes, 16⟩⟩
      else if size_field fp.bytes > fp.bytes.length - 16 then ⟨-1, out, ⟨fp.bytes, 16⟩⟩
      else ⟨1, ((if size_field fp.bytes = 0 then fp.bytes.length - 16
                 else size_field fp.bytes : Nat) : Int), ⟨fp.bytes, 16⟩⟩ := by
  obtain ⟨bytes, c⟩ := fp
  simp only at hlen hmax hmagic ⊢
  have hs : vne_file_seek ⟨bytes, c⟩ 0 SEEK_SET = (0, ⟨bytes, 0⟩) := by
    rw [seek_set_ok _ _ (by omega) (by norm_num)]; simp
  have hr : fread ⟨bytes, 0⟩ 16 = (bytes.take 16, ⟨bytes, 16⟩) := by
    simp [fread, hlen]
  have hl : (bytes.take 16).length = 16 := by simp [hlen]
  have hm : (bytes.take 16).take 4 = MAGIC := by
    rw [List.take_take]; simpa using hmagic
  have hsz := file_size_ok bytes 16 (by norm_num) hmax
  have hu : toU64 ((bytes.length : Int) - 16) = bytes.length - 16 := by
    rw [toU64_id _ (by omega) (by omega)]; omega
  unfold vne_video_probe_header
  simp only [hs, hr, hl, hm, hsz, hu, probe_version_eq bytes hlen, probe_size_eq bytes hlen,
    ne_eq, not_true_eq_false, if_false]
  by_cases hv : version_field bytes = 1
  · have h16 : ¬ ((bytes.length : Int) < 0 ∨ (bytes.length : Int) < 16) := by omega
    simp only [hv, not_true_eq_false, if_false, h16]
    by_cases hz : size_field bytes = 0
    · simp [hz]
      rw [wrap64_id _ (by omega) (by omega)]
    · simp only [hz, if_false]
      by_cases hgt : size_field bytes > bytes.length - 16
      · simp [hgt]
      · simp only [hgt, if_false]
        rw [wrap64_id _ (by omega) (by omega)]
  · simp [hv]

/-! ## The container probe and the choice of the byte source -/

/-- C1: on a file of at least 16 bytes that starts with the magic `VID0`, the
probe returns the invalid result `-1` exactly when the little-endian version
at bytes 4..7 is not 1 or the little-endian declared size at bytes 8..15
exceeds the file size minus 16; and `vne_video_open` on such a file takes the
invalid-header exit: it returns no handle and does not go on to generic
detection. -/
theorem probe_invalid_iff_open_fatal (fp : FILE) (out : Int)
    (hlen : 16 ≤ fp.bytes.length) (hmax : fp.bytes.length < 2 ^ 63)
    (hmagic : fp.bytes.take 4 = MAGIC) :
    ((vne_video_probe_header fp out).ret = -1 ↔
        (version_field fp.bytes ≠ 1 ∨ size_field fp.bytes > fp.bytes.length - 16))
    ∧ ∀ (E : Engine) (path : String) (info : Option VNEVideoInfo),
        E.fopen path = some fp → (vne_video_probe_header fp 0).ret = -1 →
          open_source E path = ByteSource.invalid
          ∧ open_source E path ≠ ByteSource.generic
          ∧ vne_video_open E (some path) info = (none, info) := by
  refine ⟨?_, ?_⟩
  · rw [probe_eval fp out hlen hmax hmagic]
    by_cases hv : version_field fp.bytes = 1
    · by_cases hs : size_field fp.bytes > fp.bytes.length - 16
      · simp [hv, hs]
      · simp [hv, hs]
    · simp [hv]
  · intro E path info hopen hret
    have hsrc : open_source E path = ByteSource.invalid := by
      simp [open_source, hopen, hret]
    refine ⟨hsrc, by rw [hsrc]; exact fun h => ByteSource.noConfusion h, ?_⟩
    unfold vne_video_open
    simp only [hsrc]
    split <;> rfl

theorem probe_invalid_iff_open_fatal_witness :
    (vne_video_probe_header badFile 0).ret = -1
    ∧ open_source demoEngine "bad.video" = ByteSource.invalid
    ∧ vne_video_open demoEngine (some "bad.video") none = (none, none) :=
  have h := probe_invalid_iff_open_fatal badFile 0 (by decide) (by decide) (by decide)
  have hr : (vne_video_probe_header badFile 0).ret = -1 := h.1.mpr (Or.inl (by decide))
  have ho := h.2 demoEngine "bad.video" none rfl hr
  ⟨hr, ho.1, ho.2.2⟩

/-- The probe on a well-formed container: result `1`, the payload size, and
the stream back at offset 16. -/
theorem probe_container_eval (fp : FILE) (out : Int)
    (hlen : 16 ≤ fp.bytes.length) (hmax : fp.bytes.length < 2 ^ 63)
    (hmagic : fp.bytes.take 4 = MAGIC) (hver : version_field fp.bytes = 1)
    (hsize : size_field fp.bytes ≤ fp.bytes.length - 16) :
    vne_video_probe_header fp out = ⟨1, payload_size fp.bytes, ⟨fp.bytes, 16⟩⟩ := by
  rw [probe_eval fp out hlen hmax hmagic]
  have hs : ¬ size_field fp.bytes > fp.bytes.length - 16 := by omega
  simp only [hver, ne_eq, not_true_eq_false, if_false, hs, payload_size]
  by_cases hz : size_field fp.bytes = 0
  · simp [hz]; omega
  · simp [hz]

/-- C2: on a file of length `L ≥ 16` with the magic, version 1 and declared
size `S ≤ L - 16`, the probe returns the container result `1` with payload
size `L - 16` when `S = 0` and `S` otherwise, always between `0` and `L - 16`;
and `vne_video_open` builds the adapter with payload offset exactly 16, that
payload size and initial position 0, and opens the demuxer on it. -/
theorem probe_container_open_adapter (fp : FILE) (out : Int)
    (hlen : 16 ≤ fp.bytes.length) (hmax : fp.bytes.length < 2 ^ 63)
    (hmagic : fp.bytes.take 4 = MAGIC) (hver : version_field fp.bytes = 1)
    (hsize : size_field fp.bytes ≤ fp.bytes.length - 16) :
    (vne_video_probe_header fp out).ret = 1
    ∧ (vne_video_probe_header fp out).out_size = payload_size fp.bytes
    ∧ (size_field fp.bytes = 0 → payload_size fp.bytes = (fp.bytes.length : Int) - 16)
    ∧ (size_field fp.bytes ≠ 0 → payload_size fp.bytes = (size_field fp.bytes : Int))
    ∧ 0 ≤ payload_size fp.bytes
    ∧ payload_size fp.bytes ≤ (fp.bytes.length : Int) - 16
    ∧ ∀ (E : Engine) (path : String) (info : Option VNEVideoInfo),
        E.fopen path = some fp → E.calloc_io = true →
          open_source E path = ByteSource.adapter
            { fp := some ⟨fp.bytes, 16⟩, data_offset := 16,
              data_size := payload_size fp.bytes, pos := 0 }
          ∧ (E.calloc_handle = true →
              vne_video_open E (some path) info =
                open_custom_io (fresh_handle E)
                  { fp := some ⟨fp.bytes, 16⟩, data_offset := 16,
                    data_size := payload_size fp.bytes, pos := 0 } info) := by
  have hp := fun o => probe_container_eval fp o hlen hmax hmagic hver hsize
  refine ⟨by rw [hp], by rw [hp], ?_, ?_, ?_, ?_, ?_⟩
  · intro hz; simp [payload_size, hz]
  · intro hz; simp [payload_size, hz]
  · unfold payload_size; split <;> omega
  · unfold payload_size; split <;> omega
  · intro E path info hopen hio
    have hsrc : open_source E path = ByteSource.adapter
        { fp := some ⟨fp.bytes, 16⟩, data_offset := 16,
          data_size := payload_size fp.bytes, pos := 0 } := by
      simp [open_source, hopen, hp, hio]
    refine ⟨hsrc, ?_⟩
    intro hh
    unfold vne_video_open
    simp only [hsrc, hh]
    rfl

theorem probe_container_open_adapter_witness :
    (vne_video_probe_header goodFile 0).ret = 1
    ∧ (vne_video_probe_header goodFile 0).out_size = 3
    ∧ open_source demoEngine "good.video" = ByteSource.adapter
        { fp := some ⟨goodFile.bytes, 16⟩, data_offset := 16, data_size := 3, pos := 0 }
    ∧ vne_video_open demoEngine (some "good.video") none
        = open_custom_io (fresh_handle demoEngine)
            { fp := some ⟨goodFile.bytes, 16⟩, data_offset := 16, data_size := 3, pos := 0 }
            none :=
  have h := probe_container_open_adapter goodFile 0 (by decide) (by decide) (by decide)
    (by decide) (by decide)
  have hp : payload_size goodFile.bytes = 3 := by decide
  have ho := h.2.2.2.2.2.2 demoEngine "good.video" none rfl rfl
  ⟨h.1, hp ▸ h.2.1, hp ▸ ho.1, hp ▸ ho.2 rfl⟩

/-- C3: on a file shorter than 16 bytes, or whose first four bytes are not
`VID0`, the probe returns not-container `0` whatever the other bytes are and
leaves `*out_size` alone, and `vne_video_open` then takes the
generic-detection path, not the invalid-header exit. -/
theorem probe_not_container_open_generic (fp : FILE) (out : Int)
    (h : fp.bytes.length < 16 ∨ fp.bytes.take 4 ≠ MAGIC) :
    (vne_video_probe_header fp out).ret = 0
    ∧ (vne_video_probe_header fp out).out_size = out
    ∧ ∀ (E : Engine) (path : String) (info : Option VNEVideoInfo),
        E.fopen path = some fp →
          open_source E path = ByteSource.generic
          ∧ open_source E path ≠ ByteSource.invalid
          ∧ (E.calloc_handle = true →
              vne_video_open E (some path) info = open_generic (fresh_handle E) path info) := by
  have hp : ∀ o, (vne_video_probe_header fp o).ret = 0
      ∧ (vne_video_probe_header fp o).out_size = o := by
    intro o
    obtain ⟨bytes, c⟩ := fp
    simp only at h
    have hs : vne_file_seek ⟨bytes, c⟩ 0 SEEK_SET = (0, ⟨bytes, 0⟩) := by
      rw [seek_set_ok _ _ (by omega) (by norm_num)]; simp
    have hr : (fread ⟨bytes, 0⟩ 16).1 = bytes.take 16 := by simp [fread]
    unfold vne_video_probe_header
    simp only [hs, hr, ne_eq, not_true_eq_false, if_false]
    by_cases hl : bytes.length < 16
    · have hl2 : ¬ (bytes.take 16).length = 16 := by
        rw [List.length_take]; omega
      rw [if_pos hl2]
      exact ⟨rfl, rfl⟩
    · have hl2 : (bytes.take 16).length = 16 := by
        rw [List.length_take]; omega
      have hm : ¬ (bytes.take 16).take 4 = MAGIC := by
        rw [List.take_take]
        rcases h with h | h
        · omega
        · simpa using h
      rw [if_neg (not_not.mpr hl2), if_pos hm]
      exact ⟨rfl, rfl⟩
  refine ⟨(hp out).1, (hp out).2, ?_⟩
  intro E path info hopen
  have hsrc : open_source E path = ByteSource.generic := by
    simp [open_source, hopen, (hp 0).1]
  refine ⟨hsrc, by rw [hsrc]; exact fun h => ByteSource.noConfusion h, ?_⟩
  intro hh
  unfold vne_video_open
  simp only [hsrc, hh]
  rfl

theorem probe_not_container_open_generic_witness :
    (vne_video_probe_header plainFile 0).ret = 0
    ∧ open_source demoEngine "plain.webm" = ByteSource.generic
    ∧ vne_video_open demoEngine (some "plain.webm") none
        = open_generic (fresh_handle demoEngine) "plain.webm" none :=
  have h := probe_not_container_open_generic plainFile 0 (Or.inr (by decide))
  have ho := h.2.2 demoEngine "plain.webm" none rfl
  ⟨h.1, ho.1, ho.2.2 rfl⟩

/-! ## The byte-source adapter -/

/-- A read at or past the logical end: `AVERROR_EOF`, adapter untouched. -/
theorem read_at_end (fp : FILE) (off ds p n : Int) (h0 : 0 ≤ p) (h1 : ds ≤ p)
    (hds : 0 ≤ ds) (hp : p < 2 ^ 63) :
    vne_video_read (some ⟨some fp, off, ds, p⟩) n
      = ⟨ AVERROR_EOF, [], some ⟨some fp, off, ds, p⟩⟩ := by
  have hr : wrap64 (ds - p) ≤ 0 := by
    rw [wrap64_id _ (by omega) (by omega)]; omega
  simp [vne_video_read, hr]

theorem wrap64_nat (k : Nat) (h : k < 2 ^ 63) : wrap64 (k : Int) = (k : Int) :=
  wrap64_id _ (by omega) (by omega)

theorem wrap32_nat (k : Nat) (h : k < 2 ^ 31) : wrap32 (k : Int) = (k : Int) :=
  wrap32_id _ (by omega) (by omega)

theorem toU64_nat (k : Nat) (h : k < 2 ^ 64) : toU64 (k : Int) = k := by
  rw [toU64_id _ (by omega) (by omega)]; omega

/-- A read strictly inside the window: it delivers `min n (ds - p)` bytes of
the file, taken at file offset `16 + p`, and advances by that amount. -/
theorem read_inside (bytes : List Byte) (c : Nat) (ds p : Nat) (n : Int)
    (hp : p < ds) (hfile : 16 + ds ≤ bytes.length) (hmax : bytes.length < 2 ^ 63)
    (hn0 : 0 < n) (hn1 : n < 2 ^ 31) :
    vne_video_read (some ⟨some ⟨bytes, c⟩, 16, (ds : Int), (p : Int)⟩) n
      = ⟨((min n.toNat (ds - p) : Nat) : Int),
          (bytes.drop (16 + p)).take (min n.toNat (ds - p)),
          some ⟨some ⟨bytes, 16 + p + min n.toNat (ds - p)⟩, 16, (ds : Int),
            ((p + min n.toNat (ds - p) : Nat) : Int)⟩⟩ := by
  generalize hk : min n.toNat (ds - p) = k
  have f1 : k ≠ 0 := by omega
  have f2 : k < 2 ^ 31 := by omega
  have f3 : p + k < 2 ^ 63 := by omega
  have f4 : 16 + p < 2 ^ 63 := by omega
  have f5 : ds - p < 2 ^ 63 := by omega
  have f6 : k ≤ bytes.length - (16 + p) := by omega
  have f7 : (ds : Int) - (p : Int) = ((ds - p : Nat) : Int) := by omega
  have f8 : ¬ (((ds - p : Nat) : Int) ≤ 0) := by omega
  have f9 : n > ((ds - p : Nat) : Int) → ds - p = k := by omega
  have f10 : ¬ (n > ((ds - p : Nat) : Int)) → n = (k : Int) := by omega
  have f11 : ds - p < 2 ^ 31 ∨ ¬ (n > ((ds - p : Nat) : Int)) := by omega
  have f12 : (16 : Int) + (p : Int) = ((16 + p : Nat) : Int) := by omega
  have f13 : (p : Int) + (k : Int) = ((p + k : Nat) : Int) := by omega
  have f14 : k < 2 ^ 64 := by omega
  clear hk hp hfile hmax hn0 hn1
  have hsk : vne_file_seek ⟨bytes, c⟩ ((16 + p : Nat) : Int) SEEK_SET = (0, ⟨bytes, 16 + p⟩) := by
    rw [seek_set_ok _ _ (Int.ofNat_nonneg _) (by exact_mod_cast f4)]
    rw [Int.toNat_ofNat]
  have hlen : ((bytes.drop (16 + p)).take k).length = k := by
    rw [List.length_take, List.length_drop]; exact Nat.min_eq_left f6
  have hfr : fread ⟨bytes, 16 + p⟩ k = ((bytes.drop (16 + p)).take k, ⟨bytes, 16 + p + k⟩) := by
    simp only [fread, hlen]
  have htr : (if n > ((ds - p : Nat) : Int) then wrap32 ((ds - p : Nat) : Int) else n)
      = (k : Int) := by
    split
    · rename_i h
      rcases f11 with h' | h'
      · rw [wrap32_nat _ h', f9 h]
      · exact absurd h h'
    · rename_i h
      exact f10 h
  unfold vne_video_read
  simp only [f7, f12, f13, wrap64_nat _ f5, wrap64_nat _ f4, wrap64_nat _ f3, f8, if_false, htr,
    hsk, ne_eq, not_true_eq_false, toU64_nat _ f14, hfr, hlen, f1, wrap32_nat _ f2]
/-- C5: for an adapter with `0 ≤ pos ≤ data_size` on a file that holds the
whole window, and a buffer size `n > 0`: at `pos ≥ data_size` the read
returns `AVERROR_EOF` (not the I/O error code) and leaves the adapter as it
was; otherwise it returns exactly `min n (data_size - pos) > 0`, delivers that
many bytes and advances `pos` by that amount. -/
theorem read_clamped_or_eof (io : VNEVideoIO) (fp : FILE) (n : Int)
    (hfp : io.fp = some fp) (hoff : io.data_offset = 16)
    (hp0 : 0 ≤ io.pos) (hp1 : io.pos ≤ io.data_size)
    (hfile : 16 + io.data_size ≤ fp.bytes.length) (hmax : fp.bytes.length < 2 ^ 63)
    (hn0 : 0 < n) (hn1 : n < 2 ^ 31) :
    (io.data_size ≤ io.pos →
        (vne_video_read (some io) n).ret = AVERROR_EOF
        ∧ (vne_video_read (some io) n).ret ≠ AVERROR_EIO
        ∧ (vne_video_read (some io) n).io = some io)
    ∧ (io.pos < io.data_size →
        (vne_video_read (some io) n).ret = min n (io.data_size - io.pos)
        ∧ 0 < (vne_video_read (some io) n).ret
        ∧ ((vne_video_read (some io) n).buf.length : Int) = (vne_video_read (some io) n).ret
        ∧ ∃ io', (vne_video_read (some io) n).io = some io'
            ∧ io'.pos = io.pos + min n (io.data_size - io.pos)
            ∧ io'.data_size = io.data_size ∧ io'.data_offset = io.data_offset) := by
  obtain ⟨f, off, ds, p⟩ := io
  obtain ⟨bytes, c⟩ := fp
  simp only at hfp hoff hp0 hp1 hfile hmax ⊢
  subst hfp hoff
  constructor
  · intro h
    rw [read_at_end _ _ _ _ _ hp0 h (by omega) (by omega)]
    exact ⟨rfl, (by decide : AVERROR_EOF ≠ AVERROR_EIO), rfl⟩
  · intro h
    obtain ⟨pn, rfl⟩ := Int.eq_ofNat_of_zero_le hp0
    obtain ⟨dn, rfl⟩ := Int.eq_ofNat_of_zero_le (show (0 : Int) ≤ ds by omega)
    rw [read_inside bytes c dn pn n (by omega) (by omega) hmax hn0 hn1]
    refine ⟨by simp only; omega, by simp only; omega, ?_, ⟨_, rfl, by simp only; omega, rfl, rfl⟩⟩
    simp only [List.length_take, List.length_drop]
    omega

theorem read_clamped_or_eof_witness :
    (vne_video_read (some midAdapter) 8).ret = min 8 (10 - 5)
    ∧ 0 < (vne_video_read (some midAdapter) 8).ret :=
  have h := read_clamped_or_eof midAdapter
    ⟨[86, 73, 68, 48, 1, 0, 0, 0, 10, 0, 0, 0, 0, 0, 0, 0,
      10, 11, 12, 13, 14, 15, 16, 17, 18, 19], 16⟩ 8 rfl rfl (by decide) (by decide)
    (by decide) (by decide) (by decide) (by decide)
  ⟨(h.2 (by decide)).1, (h.2 (by decide)).2.1⟩

/-- C6: a seek with `whence = AVSEEK_SIZE` returns the logical payload size
`data_size`, whatever the offset, and leaves the adapter (so the read
position) unchanged; the value differs from the size of the underlying file,
which is at least `data_size + 16`. -/
theorem seek_size_query (io : VNEVideoIO) (fp : FILE) (offset : Int) (hfp : io.fp = some fp) :
    vne_video_seek (some io) offset AVSEEK_SIZE = ⟨io.data_size, some io⟩
    ∧ (io.data_size + 16 ≤ fp.bytes.length →
        (vne_video_seek (some io) offset AVSEEK_SIZE).ret ≠ (fp.bytes.length : Int)) := by
  have h : vne_video_seek (some io) offset AVSEEK_SIZE = ⟨io.data_size, some io⟩ := by
    simp [vne_video_seek, hfp]
  refine ⟨h, ?_⟩
  intro hl
  rw [h]
  simp only
  omega

theorem seek_size_query_witness :
    vne_video_seek (some midAdapter) 3 AVSEEK_SIZE = ⟨10, some midAdapter⟩ :=
  (seek_size_query midAdapter _ 3 rfl).1

/-- C7 as stated fails: a seek to start with offset `-1` is not clamped to
`0`; it is rejected with `-1` and the position stays at 5. -/
theorem seek_negative_target_rejected :
    vne_video_seek (some midAdapter) (-1) SEEK_SET = ⟨-1, some midAdapter⟩
    ∧ (vne_video_seek (some midAdapter) (-1) SEEK_SET).ret
        ≠ max 0 (min (seek_target midAdapter (-1) SEEK_SET) midAdapter.data_size) := by
  decide

/-- C7, amended: for `whence` in start / current / end with target `t`
(`offset`, `pos + offset` or `data_size + offset`, sums modulo `2^64`): when
`t < 0` the seek is rejected with `-1` and the adapter is unchanged; when
`t ≥ 0` the seek sets `pos` to `min t data_size` and returns that value.  A
seek with any other `whence` that is not the size query is rejected with
`-1`, the adapter unchanged. -/
theorem seek_clamps_above_rejects_below (io : VNEVideoIO) (fp : FILE) (offset whence : Int)
    (hfp : io.fp = some fp) :
    ((whence = SEEK_SET ∨ whence = SEEK_CUR ∨ whence = SEEK_END) →
        (seek_target io offset whence < 0 →
          vne_video_seek (some io) offset whence = ⟨-1, some io⟩)
        ∧ (0 ≤ seek_target io offset whence →
          vne_video_seek (some io) offset whence
            = ⟨min (seek_target io offset whence) io.data_size,
                some { io with pos := min (seek_target io offset whence) io.data_size }⟩))
    ∧ ((whence ≠ SEEK_SET ∧ whence ≠ SEEK_CUR ∧ whence ≠ SEEK_END ∧ whence ≠ AVSEEK_SIZE) →
        vne_video_seek (some io) offset whence = ⟨-1, some io⟩) := by
  constructor
  · intro hw
    have hns : whence ≠ AVSEEK_SIZE := by
      rcases hw with h | h | h <;> rw [h] <;> decide
    have hsome : (if whence = SEEK_SET then some offset
          else if whence = SEEK_CUR then some (wrap64 (io.pos + offset))
          else if whence = SEEK_END then some (wrap64 (io.data_size + offset))
          else none) = some (seek_target io offset whence) := by
      unfold seek_target
      rcases hw with h | h | h
      · simp [h]
      · have : ¬ (SEEK_CUR = SEEK_SET) := by decide
        simp [h, this]
      · have h1 : ¬ (SEEK_END = SEEK_SET) := by decide
        have h2 : ¬ (SEEK_END = SEEK_CUR) := by decide
        simp [h, h1, h2]
    constructor
    · intro hneg
      simp only [vne_video_seek, hfp, hns, if_false, hsome, hneg, if_true]
    · intro hpos
      have hn : ¬ (seek_target io offset whence < 0) := by omega
      simp only [vne_video_seek, hfp, hns, if_false, hsome, hn]
      by_cases hgt : seek_target io offset whence > io.data_size
      · have : min (seek_target io offset whence) io.data_size = io.data_size := by omega
        simp only [hgt, if_true, this]
      · have : min (seek_target io offset whence) io.data_size = seek_target io offset whence := by
          omega
        simp only [hgt, if_false, this]
  · rintro ⟨h1, h2, h3, h4⟩
    simp [vne_video_seek, hfp, h1, h2, h3, h4]

theorem seek_clamps_above_rejects_below_witness :
    vne_video_seek (some midAdapter) 7 SEEK_CUR
      = ⟨10, some { midAdapter with pos := 10 }⟩ :=
  have h := seek_clamps_above_rejects_below midAdapter _ 7 SEEK_CUR rfl
  have h2 := (h.1 (Or.inr (Or.inl rfl))).2 (by decide)
  have e : min (seek_target midAdapter 7 SEEK_CUR) midAdapter.data_size = 10 := by decide
  e ▸ h2

/-! ## Round trip of the wrapper -/

theorem leBytes_length (k n : Nat) : (leBytes k n).length = k := by
  induction k generalizing n with
  | zero => rfl
  | succ k ih => simp [leBytes, ih]

theorem wrap_container_eq (P extra : List Byte) :
    wrap_container P extra
      = 86 :: 73 :: 68 :: 48 :: 1 :: 0 :: 0 :: 0 :: (leBytes 8 P.length ++ (P ++ extra)) := by
  have h : leBytes 4 1 = [1, 0, 0, 0] := by decide
  simp only [wrap_container, MAGIC, h, List.cons_append, List.nil_append, List.append_assoc]

theorem leValue_leBytes8 (n : Nat) (h : n < 2 ^ 64) : leValue (leBytes 8 n) = n := by
  simp only [leBytes, leValue]
  omega

theorem wrap_length (P extra : List Byte) :
    (wrap_container P extra).length = 16 + P.length + extra.length := by
  simp only [wrap_container_eq, List.length_cons, List.length_append, leBytes_length]
  omega

theorem wrap_take4 (P extra : List Byte) : (wrap_container P extra).take 4 = MAGIC := by
  rw [wrap_container_eq]; rfl

theorem wrap_version (P extra : List Byte) : version_field (wrap_container P extra) = 1 := by
  rw [wrap_container_eq]; rfl

theorem wrap_size (P extra : List Byte) (h : P.length < 2 ^ 64) :
    size_field (wrap_container P extra) = P.length := by
  rw [wrap_container_eq, size_field]
  simp only [List.drop_succ_cons, List.drop_zero]
  rw [List.take_left' (leBytes_length 8 _)]
  exact leValue_leBytes8 _ h

theorem wrap_drop16 (P extra : List Byte) : (wrap_container P extra).drop 16 = P ++ extra := by
  rw [wrap_container_eq]
  simp only [List.drop_succ_cons]
  rw [List.drop_left' (leBytes_length 8 _)]

theorem total_size_cons (n : Int) (ns : List Int) :
    total_size (n :: ns) = n.toNat + total_size ns := by
  simp [total_size]

theorem total_size_append_one (ns : List Int) (n : Int) :
    total_size (ns ++ [n]) = total_size ns + n.toNat := by
  simp [total_size]

/-- One read of the loop, at or past the end of the window. -/
theorem read_seq_at_end (fp : FILE) (ds : Nat) (hds : ds < 2 ^ 63) (n : Int) (ns : List Int) :
    read_seq (some ⟨some fp, 16, (ds : Int), (ds : Int)⟩) (n :: ns) = ([], some AVERROR_EOF) := by
  have h := read_at_end fp 16 (ds : Int) (ds : Int) n (by omega) (by omega) (by omega) (by omega)
  have hle : AVERROR_EOF ≤ 0 := by decide
  simp only [read_seq, h, hle, if_true]

/-- One read of the loop, strictly inside the window. -/
theorem read_seq_inside (bytes : List Byte) (c : Nat) (ds p : Nat) (n : Int) (ns : List Int)
    (hp : p < ds) (hfile : 16 + ds ≤ bytes.length) (hmax : bytes.length < 2 ^ 63)
    (hn0 : 0 < n) (hn1 : n < 2 ^ 31) :
    read_seq (some ⟨some ⟨bytes, c⟩, 16, (ds : Int), (p : Int)⟩) (n :: ns)
      = ((bytes.drop (16 + p)).take (min n.toNat (ds - p))
          ++ (read_seq (some ⟨some ⟨bytes, 16 + p + min n.toNat (ds - p)⟩, 16, (ds : Int),
                ((p + min n.toNat (ds - p) : Nat) : Int)⟩) ns).1,
         (read_seq (some ⟨some ⟨bytes, 16 + p + min n.toNat (ds - p)⟩, 16, (ds : Int),
                ((p + min n.toNat (ds - p) : Nat) : Int)⟩) ns).2) := by
  have h := read_inside bytes c ds p n hp hfile hmax hn0 hn1
  have hk : ¬ (((min n.toNat (ds - p) : Nat) : Int) ≤ 0) := by omega
  simp only [read_seq, h, hk, if_false]

/-- The read loop delivers the window from the current position on, as far
as the buffer sizes reach, and can only end with `AVERROR_EOF`, which it does
only once the whole window has been delivered. -/
theorem read_seq_spec (bytes : List Byte) (ds : Nat) (hfile : 16 + ds ≤ bytes.length)
    (hmax : bytes.length < 2 ^ 63) (sizes : List Int)
    (hs : ∀ n ∈ sizes, 0 < n ∧ n < 2 ^ 31) (p c : Nat) (hp : p ≤ ds) :
    (read_seq (some ⟨some ⟨bytes, c⟩, 16, (ds : Int), (p : Int)⟩) sizes).1
        = (bytes.drop (16 + p)).take (min (total_size sizes) (ds - p))
    ∧ ((read_seq (some ⟨some ⟨bytes, c⟩, 16, (ds : Int), (p : Int)⟩) sizes).2 = none
        ∨ (read_seq (some ⟨some ⟨bytes, c⟩, 16, (ds : Int), (p : Int)⟩) sizes).2
            = some AVERROR_EOF)
    ∧ ((read_seq (some ⟨some ⟨bytes, c⟩, 16, (ds : Int), (p : Int)⟩) sizes).2
          = some AVERROR_EOF → ds - p ≤ total_size sizes) := by
  induction sizes generalizing p c with
  | nil =>
    refine ⟨?_, Or.inl rfl, ?_⟩
    · simp [read_seq, total_size]
    · intro h; simp [read_seq] at h
  | cons n ns ih =>
    have hn := hs n (List.mem_cons_self n ns)
    have hns : ∀ m ∈ ns, 0 < m ∧ m < 2 ^ 31 := fun m hm => hs m (List.mem_cons_of_mem n hm)
    rcases Nat.lt_or_ge p ds with hlt | hge
    · rw [read_seq_inside bytes c ds p n ns hlt hfile hmax hn.1 hn.2, total_size_cons]
      generalize hk : min n.toNat (ds - p) = k
      have hpk : p + k ≤ ds := by omega
      obtain ⟨i1, i2, i3⟩ := ih hns (p + k) (16 + p + k) hpk
      have e : 16 + (p + k) = 16 + p + k := by omega
      rw [e] at i1
      refine ⟨?_, i2, ?_⟩
      · simp only
        rw [i1]
        have hsum : min (n.toNat + total_size ns) (ds - p)
            = k + min (total_size ns) (ds - (p + k)) := by omega
        rw [hsum, List.take_add, List.drop_drop]
      · intro h
        have := i3 h
        omega
    · have hpe : p = ds := by omega
      subst hpe
      rw [read_seq_at_end _ _ (by omega)]
      refine ⟨?_, Or.inr rfl, ?_⟩
      · simp
      · intro _; omega

/-- Once the buffer sizes cover the rest of the window, one more read ends
the loop with `AVERROR_EOF`. -/
theorem read_seq_reaches_eof (bytes : List Byte) (ds : Nat) (hfile : 16 + ds ≤ bytes.length)
    (hmax : bytes.length < 2 ^ 63) (sizes : List Int)
    (hs : ∀ n ∈ sizes, 0 < n ∧ n < 2 ^ 31) (p c : Nat) (hp : p ≤ ds)
    (hcover : ds - p ≤ total_size sizes) (n : Int) :
    (read_seq (some ⟨some ⟨bytes, c⟩, 16, (ds : Int), (p : Int)⟩) (sizes ++ [n])).2
      = some AVERROR_EOF := by
  induction sizes generalizing p c with
  | nil =>
    have hpe : p = ds := by simp [total_size] at hcover; omega
    subst hpe
    rw [List.nil_append, read_seq_at_end _ _ (by omega)]
  | cons m ms ih =>
    have hm := hs m (List.mem_cons_self m ms)
    have hms : ∀ x ∈ ms, 0 < x ∧ x < 2 ^ 31 := fun x hx => hs x (List.mem_cons_of_mem m hx)
    rw [total_size_cons] at hcover
    rcases Nat.lt_or_ge p ds with hlt | hge
    · rw [List.cons_append, read_seq_inside bytes c ds p m _ hlt hfile hmax hm.1 hm.2]
      generalize hk : min m.toNat (ds - p) = k
      exact ih hms (p + k) (16 + p + k) (by omega) (by omega)
    · have hpe : p = ds := by omega
      subst hpe
      rw [List.cons_append, read_seq_at_end _ _ (by omega)]

/-- The bytes of a wrapped file from offset `16 + p` on, cut off inside the
payload, are payload bytes. -/
theorem wrap_window (P extra : List Byte) (p m : Nat) (hp : p ≤ P.length)
    (hm : m ≤ P.length - p) :
    ((wrap_container P extra).drop (16 + p)).take m = (P.drop p).take m := by
  have h : (wrap_container P extra).drop (16 + p) = P.drop p ++ extra := by
    rw [← List.drop_drop, wrap_drop16, List.drop_append_of_le_length hp]
  rw [h, List.take_append_of_le_length (by rw [List.length_drop]; exact hm)]

theorem wrap_probe (P extra : List Byte) (c : Nat) (out : Int)
    (hne : P ≠ [] ∨ extra = []) (hmax : 16 + P.length + extra.length < 2 ^ 63) :
    vne_video_probe_header ⟨wrap_container P extra, c⟩ out
      = ⟨1, (P.length : Int), ⟨wrap_container P extra, 16⟩⟩ := by
  have hlen := wrap_length P extra
  have hsz : size_field (wrap_container P extra) = P.length := wrap_size P extra (by omega)
  have h1 : 16 ≤ (wrap_container P extra).length := by omega
  have h2 : (wrap_container P extra).length < 2 ^ 63 := by omega
  have h3 : size_field (wrap_container P extra) ≤ (wrap_container P extra).length - 16 := by
    omega
  have hpay : payload_size (wrap_container P extra) = (P.length : Int) := by
    unfold payload_size
    rw [hsz]
    split
    · rename_i h0
      rcases hne with h | h
      · exact absurd (List.length_eq_zero.mp h0) h
      · subst h; simp only [List.length_nil] at hlen; omega
    · rfl
  rw [probe_container_eval ⟨wrap_container P extra, c⟩ out h1 h2 (wrap_take4 P extra)
    (wrap_version P extra) h3, hpay]

theorem wrap_read (P extra : List Byte) (hmax : 16 + P.length + extra.length < 2 ^ 63)
    (p : Nat) (n : Int) (c : Nat) (hp : p ≤ P.length) (hn0 : 0 < n) (hn1 : n < 2 ^ 31) :
    (vne_video_read (some ⟨some ⟨wrap_container P extra, c⟩, 16, (P.length : Int),
        (p : Int)⟩) n).buf
      = ((wrap_container P extra).drop (16 + p)).take (min n.toNat (P.length - p))
    ∧ (vne_video_read (some ⟨some ⟨wrap_container P extra, c⟩, 16, (P.length : Int),
        (p : Int)⟩) n).buf = (P.drop p).take n.toNat
    ∧ (p < P.length →
        (vne_video_read (some ⟨some ⟨wrap_container P extra, c⟩, 16, (P.length : Int),
          (p : Int)⟩) n).ret = ((min n.toNat (P.length - p) : Nat) : Int)) := by
  have hlen := wrap_length P extra
  have hfile : 16 + P.length ≤ (wrap_container P extra).length := by omega
  have hmax2 : (wrap_container P extra).length < 2 ^ 63 := by omega
  have hpl : P.length < 2 ^ 63 := by omega
  have hmin : min (min n.toNat (P.length - p)) (P.drop p).length = min n.toNat (P.drop p).length := by
    rw [List.length_drop]; omega
  clear hlen hmax
  rcases Nat.lt_or_ge p P.length with hlt | hge
  · rw [read_inside _ c P.length p n hlt hfile hmax2 hn0 hn1]
    refine ⟨rfl, ?_, fun _ => rfl⟩
    simp only
    rw [wrap_window P extra p _ hp (Nat.min_le_right _ _), List.take_eq_take]
    exact hmin
  · have hpe : p = P.length := Nat.le_antisymm hp hge
    subst hpe
    rw [read_at_end _ _ _ _ _ (Int.ofNat_nonneg _) (Int.le_refl _) (Int.ofNat_nonneg _)
      (by exact_mod_cast hpl)]
    refine ⟨by simp, by simp, fun h => absurd h (Nat.lt_irrefl _)⟩

theorem wrap_read_seq (P extra : List Byte) (c : Nat) (sizes : List Int)
    (hmax : 16 + P.length + extra.length < 2 ^ 63)
    (hs : ∀ n ∈ sizes, 0 < n ∧ n < 2 ^ 31) :
    (read_seq (some ⟨some ⟨wrap_container P extra, c⟩, 16, (P.length : Int), 0⟩) sizes).1
        = P.take (total_size sizes)
    ∧ ((read_seq (some ⟨some ⟨wrap_container P extra, c⟩, 16, (P.length : Int), 0⟩) sizes).2
          = none
        ∨ (read_seq (some ⟨some ⟨wrap_container P extra, c⟩, 16, (P.length : Int), 0⟩) sizes).2
          = some AVERROR_EOF)
    ∧ ((read_seq (some ⟨some ⟨wrap_container P extra, c⟩, 16, (P.length : Int), 0⟩) sizes).2
          = some AVERROR_EOF → P.length ≤ total_size sizes) := by
  have hlen := wrap_length P extra
  have hfile : 16 + P.length ≤ (wrap_container P extra).length := by omega
  have hmax2 : (wrap_container P extra).length < 2 ^ 63 := by omega
  clear hlen hmax
  have hseq := read_seq_spec (wrap_container P extra) P.length hfile hmax2 sizes hs 0 c
    (Nat.zero_le _)
  simp only [Nat.cast_zero, Nat.add_zero, Nat.sub_zero] at hseq
  refine ⟨?_, hseq.2.1, hseq.2.2⟩
  rw [hseq.1]
  have hw := wrap_window P extra 0 (min (total_size sizes) P.length) (Nat.zero_le _)
    (Nat.min_le_right _ _)
  simp only [Nat.add_zero, List.drop_zero] at hw
  rw [hw, List.take_eq_take, Nat.min_assoc, Nat.min_self]

theorem wrap_read_seq_eof (P extra : List Byte) (c : Nat) (sizes : List Int)
    (hmax : 16 + P.length + extra.length < 2 ^ 63)
    (hs : ∀ n ∈ sizes, 0 < n ∧ n < 2 ^ 31) (hc : P.length ≤ total_size sizes)
    (n : Int) (hn0 : 0 < n) (hn1 : n < 2 ^ 31) :
    read_seq (some ⟨some ⟨wrap_container P extra, c⟩, 16, (P.length : Int), 0⟩)
      (sizes ++ [n]) = (P, some AVERROR_EOF) := by
  have hlen := wrap_length P extra
  have hfile : 16 + P.length ≤ (wrap_container P extra).length := by omega
  have hmax2 : (wrap_container P extra).length < 2 ^ 63 := by omega
  have hc2 : P.length - 0 ≤ total_size sizes := by omega
  have hc3 : P.length ≤ total_size (sizes ++ [n]) := by
    rw [total_size_append_one]; omega
  clear hlen
  have hs2 : ∀ m ∈ sizes ++ [n], 0 < m ∧ m < 2 ^ 31 := by
    intro m hm
    rcases List.mem_append.mp hm with h | h
    · exact hs m h
    · rw [List.mem_singleton.mp h]; exact ⟨hn0, hn1⟩
  have h1 := (wrap_read_seq P extra c (sizes ++ [n]) hmax hs2).1
  have h2 := read_seq_reaches_eof (wrap_container P extra) P.length hfile hmax2 sizes hs 0 c
    (Nat.zero_le _) hc2 n
  simp only [Nat.cast_zero] at h2
  rw [List.take_of_length_le hc3] at h1
  exact Prod.ext h1 h2

/-- C4 as stated fails for an empty payload followed by trailing bytes: the
header then declares size 0, which the probe reads as "rest of file", so the
payload size is 1 instead of 0 and the read loop delivers the trailing byte,
which lies at offset 16 + 0. -/
theorem wrap_empty_payload_reads_trailing :
    (vne_video_probe_header ⟨wrap_container [] [7], 0⟩ 0).ret = 1
    ∧ (vne_video_probe_header ⟨wrap_container [] [7], 0⟩ 0).out_size
        ≠ ((([] : List Byte).length : Nat) : Int)
    ∧ (read_seq (some ⟨some ⟨wrap_container [] [7], 16⟩, 16,
          (vne_video_probe_header ⟨wrap_container [] [7], 0⟩ 0).out_size, 0⟩) [4, 4])
        = ([7], some AVERROR_EOF) := by
  decide

/-- C4, amended: for a payload `P` that is non-empty, or empty with no
trailing bytes, the file `header("VID0", 1, len P) ++ P ++ extra` is probed as
a container with payload size `len P`; every read of the adapter at a position
`p ≤ len P` with a positive buffer size `n` delivers exactly the file bytes
at `[16 + p, 16 + p + min n (len P - p))`, which are the payload bytes
`P[p ..]`, hence no header byte and no byte at or beyond `16 + len P`; and
reading from position 0 with any positive buffer sizes delivers a prefix of
`P`, ends only with `AVERROR_EOF`, has delivered exactly `P` when it ends so,
and does end so as soon as the sizes cover `P` and one more read follows. -/
theorem wrap_roundtrip (P extra : List Byte) (c : Nat) (out : Int) (sizes : List Int)
    (hne : P ≠ [] ∨ extra = []) (hmax : 16 + P.length + extra.length < 2 ^ 63)
    (hs : ∀ n ∈ sizes, 0 < n ∧ n < 2 ^ 31) :
    (vne_video_probe_header ⟨wrap_container P extra, c⟩ out).ret = 1
    ∧ (vne_video_probe_header ⟨wrap_container P extra, c⟩ out).out_size = (P.length : Int)
    ∧ (∀ (p : Nat) (n : Int) (c' : Nat), p ≤ P.length → 0 < n → n < 2 ^ 31 →
        (vne_video_read (some ⟨some ⟨wrap_container P extra, c'⟩, 16, (P.length : Int),
            (p : Int)⟩) n).buf
          = ((wrap_container P extra).drop (16 + p)).take (min n.toNat (P.length - p))
        ∧ (vne_video_read (some ⟨some ⟨wrap_container P extra, c'⟩, 16, (P.length : Int),
            (p : Int)⟩) n).buf = (P.drop p).take n.toNat
        ∧ (p < P.length →
            (vne_video_read (some ⟨some ⟨wrap_container P extra, c'⟩, 16, (P.length : Int),
              (p : Int)⟩) n).ret = ((min n.toNat (P.length - p) : Nat) : Int)))
    ∧ (read_seq (some ⟨some ⟨wrap_container P extra, c⟩, 16, (P.length : Int), 0⟩) sizes).1
        = P.take (total_size sizes)
    ∧ ((read_seq (some ⟨some ⟨wrap_container P extra, c⟩, 16, (P.length : Int), 0⟩) sizes).2
          = none
        ∨ (read_seq (some ⟨some ⟨wrap_container P extra, c⟩, 16, (P.length : Int), 0⟩) sizes).2
          = some AVERROR_EOF)
    ∧ ((read_seq (some ⟨some ⟨wrap_container P extra, c⟩, 16, (P.length : Int), 0⟩) sizes).2
          = some AVERROR_EOF →
        (read_seq (some ⟨some ⟨wrap_container P extra, c⟩, 16, (P.length : Int), 0⟩) sizes).1
          = P)
    ∧ (P.length ≤ total_size sizes → ∀ n : Int, 0 < n → n < 2 ^ 31 →
        read_seq (some ⟨some ⟨wrap_container P extra, c⟩, 16, (P.length : Int), 0⟩)
          (sizes ++ [n]) = (P, some AVERROR_EOF)) := by
  have hA := wrap_probe P extra c out hne hmax
  have hC := wrap_read_seq P extra c sizes hmax hs
  refine ⟨by rw [hA], by rw [hA], fun p n c' hp h0 h1 => wrap_read P extra hmax p n c' hp h0 h1,
    hC.1, hC.2.1, ?_, ?_⟩
  · intro h
    rw [hC.1]
    exact List.take_of_length_le (hC.2.2 h)
  · intro hc n hn0 hn1
    exact wrap_read_seq_eof P extra c sizes hmax hs hc n hn0 hn1

theorem wrap_roundtrip_witness :
    (vne_video_probe_header ⟨wrap_container [1, 2, 3] [9], 0⟩ 0).out_size = 3
    ∧ read_seq (some ⟨some ⟨wrap_container [1, 2, 3] [9], 0⟩, 16, 3, 0⟩) ([2, 2] ++ [5])
        = ([1, 2, 3], some AVERROR_EOF) :=
  have h := wrap_roundtrip [1, 2, 3] [9] 0 0 [2, 2] (Or.inl (by decide)) (by decide)
    (by decide)
  ⟨h.2.1, h.2.2.2.2.2.2 (by decide) 5 (by decide) (by decide)⟩

open VNEFrameType

/-! ## The frame scheduler -/

/-- What `try_receive_video` leaves alone, and the shape of its result. -/
theorem try_receive_video_frame {E : Engine} (v : VNEVideo E) (ov : Option VNEVideoFrame) :
    (try_receive_video v ov).v.fmt = v.fmt
    ∧ (try_receive_video v ov).v.adec = v.adec
    ∧ (try_receive_video v ov).v.eof = v.eof
    ∧ (try_receive_video v ov).v.vstream_index = v.vstream_index
    ∧ (try_receive_video v ov).v.astream_index = v.astream_index
    ∧ ((try_receive_video v ov).ret = 1 ∨ (try_receive_video v ov).ret = 0
        ∨ (try_receive_video v ov).ret = -1)
    ∧ ((try_receive_video v ov).ret ≠ 1 → (try_receive_video v ov).out_video = ov) := by
  unfold try_receive_video
  split
  · simp only
    split_ifs <;> simp [set_error, set_ff_error]
  · simp

/-- What `try_receive_audio` leaves alone, and the shape of its result. -/
theorem try_receive_audio_frame {E : Engine} (v : VNEVideo E) (oa : Option VNEAudioFrame)
    (ra : RecvAudio E) (h : try_receive_audio v oa = some ra) :
    ra.v.fmt = v.fmt
    ∧ ra.v.vdec = v.vdec
    ∧ ra.v.eof = v.eof
    ∧ ra.v.vstream_index = v.vstream_index
    ∧ ra.v.astream_index = v.astream_index
    ∧ (ra.v.adec = none ↔ v.adec = none)
    ∧ (ra.ret = 1 ∨ ra.ret = 0 ∨ ra.ret = -1)
    ∧ (ra.ret ≠ 1 → ra.out_audio = oa)
    ∧ (v.adec = none → ra.ret = 0 ∧ ra.v = v) := by
  unfold try_receive_audio at h
  split at h
  · rename_i dec0 x hd ho
    lift_lets at h
    extract_lets r ret dec v1 channels samples unref at h
    split_ifs at h with c1 c2 c3
    · cases h; simp [v1, ho]
    · cases h; simp [v1, ho, set_ff_error, set_error]
    · cases h; simp [v1, ho, unref, set_ff_error, set_error]
    · split at h
      · cases h
      · lift_lets at h
        extract_lets delay max0 mos buf_size out_buf c converted v2 actual_size best_pts out at h
        split_ifs at h <;> cases h <;> simp [v1, v2, ho, unref, set_ff_error, set_error]
  · cases h
    refine ⟨rfl, rfl, rfl, rfl, rfl, Iff.rfl, Or.inr (Or.inl rfl), fun _ => rfl, fun _ => ⟨rfl, rfl⟩⟩

/-- What the demux read of one iteration leaves alone. -/
theorem next_pull_frame {E : Engine} (v : VNEVideo E) :
    (∀ w, next_pull v = some (Sum.inl w) → v.adec = none → w.adec = none)
    ∧ (∀ w, next_pull v = some (Sum.inr w) → w.adec = v.adec ∧ w.vdec = v.vdec) := by
  constructor
  · intro w h ha
    unfold next_pull at h
    split at h
    · simp at h
    · lift_lets at h
      extract_lets r ret v1 v2 v3 v4 routed at h
      split_ifs at h with c1 c2
      · simp only [Option.some.injEq, Sum.inl.injEq] at h
        rw [← h]
        cases hv : v.vdec <;> simp [v4, v3, v2, v1, ha, hv]
      · simp at h
      · have hr : ∀ u, routed = some u → u.adec = none := by
          intro u hu
          simp only [routed] at hu
          split_ifs at hu with d1 d2
          · split at hu
            · simp only [Option.some.injEq] at hu
              rw [← hu]; simp [v1, ha]
            · simp at hu
          · split at hu
            · rename_i dec hdec
              simp [v1, ha] at hdec
            · simp only [Option.some.injEq] at hu
              rw [← hu]; simp [v1, ha]
          · simp only [Option.some.injEq] at hu
            rw [← hu]; simp [v1, ha]
        rcases hro : routed with _ | u
        · simp [hro] at h
        · simp only [hro, Option.some.injEq, Sum.inl.injEq] at h
          rw [← h]
          simp [hr u hro]
  · intro w h
    unfold next_pull at h
    split at h
    · simp at h
    · lift_lets at h
      extract_lets r ret v1 v2 v3 v4 routed at h
      split_ifs at h with c1 c2
      · simp at h
      · simp only [Option.some.injEq, Sum.inr.injEq] at h
        rw [← h]
        simp [v1, set_ff_error, set_error]
      · rcases hro : routed with _ | u
        · simp [hro] at h
        · simp [hro] at h

/-- One iteration of the scheduler loop, read backwards from its result. -/
theorem next_inv {E : Engine} (fuel : Nat) (v : VNEVideo E) (ov : Option VNEVideoFrame)
    (oa : Option VNEAudioFrame) (r : NextResult E)
    (h : vne_video_next (fuel + 1) (some v) ov oa = some r) :
    ((try_receive_video v ov).ret = 1
        ∧ r = ⟨VNE_FRAME_VIDEO, some (try_receive_video v ov).v,
                (try_receive_video v ov).out_video, oa⟩)
    ∨ ((try_receive_video v ov).ret = -1
        ∧ r = ⟨VNE_FRAME_ERROR, some (try_receive_video v ov).v, ov, oa⟩)
    ∨ ((try_receive_video v ov).ret = 0
        ∧ ∃ ra, try_receive_audio (try_receive_video v ov).v oa = some ra
          ∧ ((ra.ret = 1 ∧ r = ⟨ VNE_FRAME_AUDIO, some ra.v, ov, ra.out_audio⟩)
            ∨ (ra.ret = -1 ∧ r = ⟨VNE_FRAME_ERROR, some ra.v, ov, oa⟩)
            ∨ (ra.ret = 0 ∧ ra.v.eof ≠ 0 ∧ r = ⟨VNE_FRAME_EOF, some ra.v, ov, oa⟩)
            ∨ (ra.ret = 0 ∧ ra.v.eof = 0
                ∧ ∃ w, next_pull ra.v = some (Sum.inr w)
                  ∧ r = ⟨VNE_FRAME_ERROR, some w, ov, oa⟩)
            ∨ (ra.ret = 0 ∧ ra.v.eof = 0
                ∧ ∃ w, next_pull ra.v = some (Sum.inl w)
                  ∧ vne_video_next fuel (some w) ov oa = some r))) := by
  have hvf := try_receive_video_frame v ov
  obtain ⟨-, -, -, -, -, hret, hout⟩ := hvf
  rw [vne_video_next] at h
  generalize try_receive_video v ov = rv at h hret hout ⊢
  rcases hret with h1 | h0 | hm
  · left
    simp only [h1, if_true, Option.some.injEq] at h
    exact ⟨h1, h.symm⟩
  · right; right
    have hov : rv.out_video = ov := hout (by rw [h0]; decide)
    have n1 : ¬ (rv.ret = 1) := by rw [h0]; decide
    have n2 : ¬ (rv.ret < 0) := by rw [h0]; decide
    simp only [n1, n2, if_false, hov] at h
    refine ⟨h0, ?_⟩
    rcases hra : try_receive_audio rv.v oa with _ | ra
    · simp [hra] at h
    · simp only [hra] at h
      obtain ⟨-, -, -, -, -, -, haret, haout, -⟩ := try_receive_audio_frame rv.v oa ra hra
      refine ⟨ra, rfl, ?_⟩
      rcases haret with a1 | a0 | am
      · left
        simp only [a1, if_true, Option.some.injEq] at h
        exact ⟨a1, h.symm⟩
      · have hoa : ra.out_audio = oa := haout (by rw [a0]; decide)
        have m1 : ¬ (ra.ret = 1) := by rw [a0]; decide
        have m2 : ¬ (ra.ret < 0) := by rw [a0]; decide
        simp only [m1, m2, if_false, hoa] at h
        by_cases he : ra.v.eof = 0
        · simp only [he, ne_eq, not_true_eq_false, if_false] at h
          rcases hp : next_pull ra.v with _ | (w | w)
          · simp [hp] at h
          · right; right; right; right
            simp only [hp] at h
            exact ⟨a0, he, w, rfl, h⟩
          · right; right; right; left
            simp only [hp, Option.some.injEq] at h
            exact ⟨a0, he, w, rfl, h.symm⟩
        · right; right; left
          simp only [ne_eq, he, not_false_eq_true, if_true, Option.some.injEq] at h
          exact ⟨a0, he, h.symm⟩
      · right; left
        have hoa : ra.out_audio = oa := haout (by rw [am]; decide)
        have m1 : ¬ (ra.ret = 1) := by rw [am]; decide
        have m2 : ra.ret < 0 := by rw [am]; decide
        simp only [m1, m2, if_false, if_true, hoa, Option.some.injEq] at h
        exact ⟨am, h.symm⟩
  · right; left
    have hov : rv.out_video = ov := hout (by rw [hm]; decide)
    have n1 : ¬ (rv.ret = 1) := by rw [hm]; decide
    have n2 : rv.ret < 0 := by rw [hm]; decide
    simp only [n1, n2, if_false, if_true, hov, Option.some.injEq] at h
    exact ⟨hm, h.symm⟩

/-- With a decoder and an output slot, the video drain returns `0` exactly
when the decoder reports no-output. -/
theorem try_receive_video_zero_iff {E : Engine} (v : VNEVideo E) (x : VNEVideoFrame)
    (dec : E.C) (hd : v.vdec = some dec) :
    (try_receive_video v (some x)).ret = 0 ↔
      ((E.avcodec_receive_frame dec).1 = AVERROR_EAGAIN
        ∨ (E.avcodec_receive_frame dec).1 = AVERROR_EOF) := by
  unfold try_receive_video
  simp only [hd]
  split_ifs <;> simp_all

/-- With a decoder and an output slot, the audio drain returns `0` exactly
when the decoder reports no-output. -/
theorem try_receive_audio_zero_iff {E : Engine} (v : VNEVideo E) (x : VNEAudioFrame)
    (dec : E.C) (hd : v.adec = some dec) (ra : RecvAudio E)
    (h : try_receive_audio v (some x) = some ra) :
    ra.ret = 0 ↔
      ((E.avcodec_receive_frame dec).1 = AVERROR_EAGAIN
        ∨ (E.avcodec_receive_frame dec).1 = AVERROR_EOF) := by
  unfold try_receive_audio at h
  split at h
  · rename_i d0 x0 hd0 hx0
    have hdd : d0 = dec := by rw [hd] at hd0; exact (Option.some.inj hd0).symm
    subst hdd
    lift_lets at h
    extract_lets r ret dec1 v1 channels samples unref at h
    split_ifs at h with c1 c2 c3
    · simp only [Option.some.injEq] at h
      rw [← h]; simp only [true_iff]; exact c1
    · simp only [Option.some.injEq] at h
      rw [← h]; simp only [ret] at c1; simp [c1]
    · simp only [Option.some.injEq] at h
      rw [← h]; simp only [ret] at c1; simp [c1]
    · split at h
      · simp at h
      · lift_lets at h
        extract_lets delay max0 mos buf_size out_buf c converted v2 actual_size best_pts out at h
        simp only [ret] at c1
        split_ifs at h <;> simp only [Option.some.injEq] at h <;> rw [← h] <;> simp [c1]
  · rename_i hne
    exact absurd rfl (hne dec x hd)

/-- Across a whole call, an output slot is written only when the call
returns the matching frame type. -/
theorem next_slots {E : Engine} (fuel : Nat) :
    ∀ (v : VNEVideo E) (ov : Option VNEVideoFrame) (oa : Option VNEAudioFrame)
      (r : NextResult E), vne_video_next fuel (some v) ov oa = some r →
      (r.ret ≠ VNE_FRAME_VIDEO → r.out_video = ov)
      ∧ (r.ret ≠ VNE_FRAME_AUDIO → r.out_audio = oa)
      ∧ r.ret ≠ VNE_FRAME_NONE := by
  induction fuel with
  | zero => intro v ov oa r h; simp [vne_video_next] at h
  | succ n ih =>
    intro v ov oa r h
    rcases next_inv n v ov oa r h with ⟨-, rfl⟩ | ⟨-, rfl⟩ | ⟨-, ra, -, hcase⟩
    · simp
    · simp
    · rcases hcase with ⟨-, rfl⟩ | ⟨-, rfl⟩ | ⟨-, -, rfl⟩ | ⟨-, -, w, -, rfl⟩ | ⟨-, -, w, -, hrec⟩
      · simp
      · simp
      · simp
      · simp
      · exact ih w ov oa r hrec

/-- A call returns `VNE_FRAME_EOF` only from an iteration in which both
drains returned `0` and the end-of-stream flag was set. -/
theorem next_eof_inv {E : Engine} (fuel : Nat) :
    ∀ (v : VNEVideo E) (ov : Option VNEVideoFrame) (oa : Option VNEAudioFrame)
      (r : NextResult E), vne_video_next fuel (some v) ov oa = some r →
      r.ret = VNE_FRAME_EOF →
      ∃ u ra, (try_receive_video u ov).ret = 0
        ∧ try_receive_audio (try_receive_video u ov).v oa = some ra
        ∧ ra.ret = 0 ∧ ra.v.eof ≠ 0 ∧ r.v = some ra.v := by
  induction fuel with
  | zero => intro v ov oa r h; simp [vne_video_next] at h
  | succ n ih =>
    intro v ov oa r h hr
    rcases next_inv n v ov oa r h with ⟨-, rfl⟩ | ⟨-, rfl⟩ | ⟨hv0, ra, hra, hcase⟩
    · simp at hr
    · simp at hr
    · rcases hcase with ⟨-, rfl⟩ | ⟨-, rfl⟩ | ⟨ha0, he, rfl⟩ | ⟨-, -, w, -, rfl⟩ | ⟨-, -, w, -, hrec⟩
      · simp at hr
      · simp at hr
      · exact ⟨v, ra, hv0, hra, ha0, he, rfl⟩
      · simp at hr
      · exact ih w ov oa r hrec hr

/-- Without an audio decoder a call never returns `VNE_FRAME_AUDIO`, and it
leaves the handle without an audio decoder. -/
theorem next_no_audio {E : Engine} (fuel : Nat) :
    ∀ (v : VNEVideo E) (ov : Option VNEVideoFrame) (oa : Option VNEAudioFrame)
      (r : NextResult E), v.adec = none → vne_video_next fuel (some v) ov oa = some r →
      r.ret ≠ VNE_FRAME_AUDIO ∧ ∃ w, r.v = some w ∧ w.adec = none := by
  induction fuel with
  | zero => intro v ov oa r _ h; simp [vne_video_next] at h
  | succ n ih =>
    intro v ov oa r hn h
    have hvn : (try_receive_video v ov).v.adec = none := by
      rw [(try_receive_video_frame v ov).2.1]; exact hn
    rcases next_inv n v ov oa r h with ⟨-, rfl⟩ | ⟨-, rfl⟩ | ⟨hv0, ra, hra, hcase⟩
    · exact ⟨by simp, _, rfl, hvn⟩
    · exact ⟨by simp, _, rfl, hvn⟩
    · obtain ⟨-, -, -, -, -, hiff, -, -, hnone⟩ :=
        try_receive_audio_frame (try_receive_video v ov).v oa ra hra
      have han : ra.v.adec = none := hiff.mpr hvn
      rcases hcase with ⟨h1, rfl⟩ | ⟨-, rfl⟩ | ⟨-, -, rfl⟩ | ⟨-, -, w, hw, rfl⟩ | ⟨-, -, w, hw, hrec⟩
      · have := (hnone hvn).1
        rw [h1] at this
        exact absurd this (by decide)
      · exact ⟨by simp, _, rfl, han⟩
      · exact ⟨by simp, _, rfl, han⟩
      · refine ⟨by simp, w, rfl, ?_⟩
        rw [((next_pull_frame ra.v).2 w hw).1]; exact han
      · exact ih w ov oa r ((next_pull_frame ra.v).1 w hw han) hrec

/-- A video drain that returns `1` has filled the output slot. -/
theorem try_receive_video_one {E : Engine} (v : VNEVideo E) (ov : Option VNEVideoFrame)
    (h : (try_receive_video v ov).ret = 1) :
    ∃ f, (try_receive_video v ov).out_video = some f := by
  generalize hrv : try_receive_video v ov = rv at h ⊢
  unfold try_receive_video at hrv
  split at hrv
  · lift_lets at hrv
    extract_lets r ret v1 width height fmt stale ctx v2 a buf_size scaled best_pts out at hrv
    split_ifs at hrv <;> rw [← hrv] at h ⊢ <;> simp at h ⊢
  · rw [← hrv] at h; simp at h

/-- An audio drain that returns `1` has filled the output slot. -/
theorem try_receive_audio_one {E : Engine} (v : VNEVideo E) (oa : Option VNEAudioFrame)
    (ra : RecvAudio E) (h : try_receive_audio v oa = some ra) (h1 : ra.ret = 1) :
    ∃ g, ra.out_audio = some g := by
  unfold try_receive_audio at h
  split at h
  · lift_lets at h
    extract_lets r ret dec1 v1 channels samples unref at h
    split_ifs at h with c1 c2 c3
    · simp only [Option.some.injEq] at h
      rw [← h] at h1; simp at h1
    · simp only [Option.some.injEq] at h
      rw [← h] at h1; simp at h1
    · simp only [Option.some.injEq] at h
      rw [← h] at h1; simp at h1
    · split at h
      · simp at h
      · lift_lets at h
        extract_lets delay max0 mos buf_size out_buf c converted v2 actual_size best_pts out at h
        split_ifs at h <;> simp only [Option.some.injEq] at h <;> rw [← h] at h1 ⊢ <;> simp at h1 ⊢
  · simp only [Option.some.injEq] at h
    rw [← h] at h1; simp at h1

/-- The loop iteration that ends with a video frame. -/
theorem next_fwd_video {E : Engine} (fuel : Nat) (v : VNEVideo E) (ov : Option VNEVideoFrame)
    (oa : Option VNEAudioFrame) (h : (try_receive_video v ov).ret = 1) :
    vne_video_next (fuel + 1) (some v) ov oa
      = some ⟨VNE_FRAME_VIDEO, some (try_receive_video v ov).v,
          (try_receive_video v ov).out_video, oa⟩ := by
  rw [vne_video_next]
  simp only [h, if_true]

/-- The loop iteration after a video drain that returned `0`. -/
theorem next_fwd_audio {E : Engine} (fuel : Nat) (v : VNEVideo E) (ov : Option VNEVideoFrame)
    (oa : Option VNEAudioFrame) (ra : RecvAudio E) (h : (try_receive_video v ov).ret = 0)
    (hra : try_receive_audio (try_receive_video v ov).v oa = some ra) :
    vne_video_next (fuel + 1) (some v) ov oa
      = if ra.ret = 1 then some ⟨ VNE_FRAME_AUDIO, some ra.v, ov, ra.out_audio⟩
        else if ra.ret < 0 then some ⟨VNE_FRAME_ERROR, some ra.v, ov, ra.out_audio⟩
        else if ra.v.eof ≠ 0 then some ⟨VNE_FRAME_EOF, some ra.v, ov, ra.out_audio⟩
        else
          match next_pull ra.v with
          | none => none
          | some (Sum.inr w) => some ⟨VNE_FRAME_ERROR, some w, ov, ra.out_audio⟩
          | some (Sum.inl w) => vne_video_next fuel (some w) ov ra.out_audio := by
  have hov : (try_receive_video v ov).out_video = ov :=
    (try_receive_video_frame v ov).2.2.2.2.2.2 (by rw [h]; decide)
  rw [vne_video_next]
  have n1 : ¬ ((try_receive_video v ov).ret = 1) := by rw [h]; decide
  have n2 : ¬ ((try_receive_video v ov).ret < 0) := by rw [h]; decide
  simp only [n1, n2, if_false, hra, hov]

/-- C8 as stated fails in its last sentence: here the video decoder has no
frame and the audio decoder has one (its `avcodec_receive_frame` returns `0`),
but the resampler converts it to zero samples, so the call returns
`VNE_FRAME_ERROR`, not `VNE_FRAME_AUDIO`. -/
theorem next_audio_frame_conversion_fails :
    (demoEngine.avcodec_receive_frame ([] : List (Int × AVFrame))).1 = AVERROR_EAGAIN
    ∧ (demoEngine.avcodec_receive_frame
        ([(0, ⟨0, 0, 8, 1024, 0, 0⟩)] : List (Int × AVFrame))).1 = 0
    ∧ (vne_video_next 1 (some (demoHandle [] (some [(0, ⟨0, 0, 8, 1024, 0, 0⟩)]) [] 0))
        (some slotV) (some slotA)).map (fun r => r.ret) = some VNE_FRAME_ERROR := by
  refine ⟨rfl, rfl, rfl⟩

/-- C8, amended: a call of `vne_video_next` on a handle with non-null output
slots consults the stages in the order video drain, audio drain,
end-of-stream check, demux read, and writes at most one output slot.
(1) If the video decoder has a frame ready and its conversion does not fail,
the result is Video and the audio decoder, the demuxer and the end-of-stream
flag are untouched.  (2) If the video decoder reports no-output and the audio
decoder has a frame ready whose conversion does not fail, the result is Audio
and the demuxer is untouched.  (3) If both drains return no-output and the
end-of-stream flag is set, the result is EndOfStream and the demuxer is
untouched.  (4) Only when both drains return no-output and the flag is clear
is the demuxer read.  (5) Whatever the call returns, the video slot changes
only with a Video result and the audio slot only with an Audio result. -/
theorem next_drain_order {E : Engine} (v : VNEVideo E) (ov : VNEVideoFrame)
    (oa : VNEAudioFrame) (fuel : Nat) :
    (∀ dec, v.vdec = some dec → 0 ≤ (E.avcodec_receive_frame dec).1 →
        (try_receive_video v (some ov)).ret ≠ -1 →
        ∃ w f, vne_video_next (fuel + 1) (some v) (some ov) (some oa)
            = some ⟨VNE_FRAME_VIDEO, some w, some f, some oa⟩
          ∧ w.adec = v.adec ∧ w.fmt = v.fmt ∧ w.eof = v.eof)
    ∧ (∀ vd ad ra, v.vdec = some vd →
        ((E.avcodec_receive_frame vd).1 = AVERROR_EAGAIN
          ∨ (E.avcodec_receive_frame vd).1 = AVERROR_EOF) →
        v.adec = some ad → 0 ≤ (E.avcodec_receive_frame ad).1 →
        try_receive_audio (try_receive_video v (some ov)).v (some oa) = some ra →
        ra.ret ≠ -1 →
        ∃ w g, vne_video_next (fuel + 1) (some v) (some ov) (some oa)
            = some ⟨ VNE_FRAME_AUDIO, some w, some ov, some g⟩
          ∧ w.fmt = v.fmt ∧ w.eof = v.eof)
    ∧ (∀ ra, (try_receive_video v (some ov)).ret = 0 →
        try_receive_audio (try_receive_video v (some ov)).v (some oa) = some ra →
        ra.ret = 0 → v.eof ≠ 0 →
        ∃ w, vne_video_next (fuel + 1) (some v) (some ov) (some oa)
            = some ⟨VNE_FRAME_EOF, some w, some ov, some oa⟩
          ∧ w.fmt = v.fmt)
    ∧ (∀ ra, (try_receive_video v (some ov)).ret = 0 →
        try_receive_audio (try_receive_video v (some ov)).v (some oa) = some ra →
        ra.ret = 0 → v.eof = 0 →
        vne_video_next (fuel + 1) (some v) (some ov) (some oa)
          = match next_pull ra.v with
            | none => none
            | some (Sum.inr w) => some ⟨VNE_FRAME_ERROR, some w, some ov, some oa⟩
            | some (Sum.inl w) => vne_video_next fuel (some w) (some ov) (some oa))
    ∧ (∀ n r, vne_video_next n (some v) (some ov) (some oa) = some r →
        (r.ret ≠ VNE_FRAME_VIDEO → r.out_video = some ov)
        ∧ (r.ret ≠ VNE_FRAME_AUDIO → r.out_audio = some oa)) := by
  obtain ⟨hfmt, hadec, heof, -, -, hret, hout⟩ := try_receive_video_frame v (some ov)
  refine ⟨?_, ?_, ?_, ?_, ?_⟩
  · intro dec hd hready hconv
    have hz := try_receive_video_zero_iff v ov dec hd
    have h1 : (try_receive_video v (some ov)).ret = 1 := by
      rcases hret with h | h | h
      · exact h
      · rcases hz.mp h with e | e
        · rw [e] at hready; exact absurd hready (by decide)
        · rw [e] at hready; exact absurd hready (by decide)
      · exact absurd h hconv
    obtain ⟨f, hf⟩ := try_receive_video_one v (some ov) h1
    exact ⟨_, f, by rw [next_fwd_video fuel v _ _ h1, hf], hadec, hfmt, heof⟩
  · intro vd ad ra hvd hnone had hready hra hconv
    have h0 : (try_receive_video v (some ov)).ret = 0 :=
      (try_receive_video_zero_iff v ov vd hvd).mpr hnone
    obtain ⟨afmt, -, aeof, -, -, -, haret, haout, -⟩ :=
      try_receive_audio_frame (try_receive_video v (some ov)).v (some oa) ra hra
    have hz := try_receive_audio_zero_iff (try_receive_video v (some ov)).v oa ad
      (by rw [hadec]; exact had) ra hra
    have h1 : ra.ret = 1 := by
      rcases haret with h | h | h
      · exact h
      · rcases hz.mp h with e | e
        · rw [e] at hready; exact absurd hready (by decide)
        · rw [e] at hready; exact absurd hready (by decide)
      · exact absurd h hconv
    obtain ⟨g, hg⟩ := try_receive_audio_one _ _ ra hra h1
    refine ⟨ra.v, g, ?_, by rw [afmt, hfmt], by rw [aeof, heof]⟩
    rw [next_fwd_audio fuel v _ _ ra h0 hra, if_pos h1, hg]
  · intro ra h0 hra ha0 he
    obtain ⟨afmt, -, aeof, -, -, -, -, haout, -⟩ :=
      try_receive_audio_frame (try_receive_video v (some ov)).v (some oa) ra hra
    have hoa : ra.out_audio = some oa := haout (by rw [ha0]; decide)
    have he' : ra.v.eof ≠ 0 := by rw [aeof, heof]; exact he
    refine ⟨ra.v, ?_, by rw [afmt, hfmt]⟩
    rw [next_fwd_audio fuel v _ _ ra h0 hra, if_neg (by rw [ha0]; decide),
      if_neg (by rw [ha0]; decide), if_pos he', hoa]
  · intro ra h0 hra ha0 he
    obtain ⟨-, -, aeof, -, -, -, -, haout, -⟩ :=
      try_receive_audio_frame (try_receive_video v (some ov)).v (some oa) ra hra
    have hoa : ra.out_audio = some oa := haout (by rw [ha0]; decide)
    have he' : ¬ (ra.v.eof ≠ 0) := by rw [aeof, heof]; exact not_not.mpr he
    rw [next_fwd_audio fuel v _ _ ra h0 hra, if_neg (by rw [ha0]; decide),
      if_neg (by rw [ha0]; decide), if_neg he', hoa]
  · intro n r h
    have := next_slots n v (some ov) (some oa) r h
    exact ⟨this.1, this.2.1⟩

theorem next_drain_order_witness :
    (∃ w f, vne_video_next 1
        (some (demoHandle [(0, ⟨4, 2, 0, 0, 40, 3⟩)] (some []) [] 0)) (some slotV) (some slotA)
      = some ⟨VNE_FRAME_VIDEO, some w, some f, some slotA⟩
      ∧ w.adec = (demoHandle [(0, ⟨4, 2, 0, 0, 40, 3⟩)] (some []) [] 0).adec
      ∧ w.fmt = (demoHandle [(0, ⟨4, 2, 0, 0, 40, 3⟩)] (some []) [] 0).fmt
      ∧ w.eof = (demoHandle [(0, ⟨4, 2, 0, 0, 40, 3⟩)] (some []) [] 0).eof)
    ∧ ∃ w g, vne_video_next 1
        (some (demoHandle [] (some [(0, ⟨0, 0, 8, 1024, 0, 3⟩)]) [] 0)) (some slotV) (some slotA)
      = some ⟨ VNE_FRAME_AUDIO, some w, some slotV, some g⟩
      ∧ w.fmt = (demoHandle [] (some [(0, ⟨0, 0, 8, 1024, 0, 3⟩)]) [] 0).fmt
      ∧ w.eof = (demoHandle [] (some [(0, ⟨0, 0, 8, 1024, 0, 3⟩)]) [] 0).eof :=
  ⟨(next_drain_order (demoHandle [(0, ⟨4, 2, 0, 0, 40, 3⟩)] (some []) [] 0) slotV slotA 0).1
      [(0, ⟨4, 2, 0, 0, 40, 3⟩)] rfl (by decide) (by decide),
   (next_drain_order (demoHandle [] (some [(0, ⟨0, 0, 8, 1024, 0, 3⟩)]) [] 0) slotV slotA 0).2.1
      [] [(0, ⟨0, 0, 8, 1024, 0, 3⟩)] _ rfl (Or.inl rfl) rfl (by decide) rfl (by decide)⟩

theorem drained_state_shift (E : Engine) (c : E.C) (n : Nat) :
    drained_state E (E.avcodec_receive_frame c).2.2 n = drained_state E c (n + 1) := by
  induction n with
  | zero => rfl
  | succ n ih => simp only [drained_state, ih]

theorem keeps_no_output_step (E : Engine) (c : E.C) (h : keeps_no_output E (some c)) :
    ((E.avcodec_receive_frame c).1 = AVERROR_EAGAIN
      ∨ (E.avcodec_receive_frame c).1 = AVERROR_EOF)
    ∧ keeps_no_output E (some (E.avcodec_receive_frame c).2.2) := by
  refine ⟨h c rfl 0, ?_⟩
  intro c0 hc0 n
  have e : c0 = (E.avcodec_receive_frame c).2.2 := (Option.some.inj hc0).symm
  subst e
  rw [drained_state_shift]
  exact h c rfl (n + 1)

/-- The video drain on a decoder that keeps reporting no-output. -/
theorem try_receive_video_quiet {E : Engine} (v : VNEVideo E) (ov : Option VNEVideoFrame)
    (h : keeps_no_output E v.vdec) :
    (try_receive_video v ov).ret = 0
    ∧ (try_receive_video v ov).out_video = ov
    ∧ keeps_no_output E (try_receive_video v ov).v.vdec := by
  rcases hd : v.vdec with _ | dec
  · have e : try_receive_video v ov = ⟨0, v, ov⟩ := by
      unfold try_receive_video
      split
      · rename_i heq
        rw [hd] at heq; cases heq
      · rfl
    rw [e]
    exact ⟨rfl, rfl, by simpa [hd] using (hd ▸ h)⟩
  · rcases ov with _ | x
    · have e : try_receive_video v none = ⟨0, v, none⟩ := by
        unfold try_receive_video
        split
        · rename_i hx
          cases hx
        · rfl
      rw [e]
      exact ⟨rfl, rfl, h⟩
    · rw [hd] at h
      obtain ⟨hq, hk⟩ := keeps_no_output_step E dec h
      have e : try_receive_video v (some x)
          = ⟨0, { v with vdec := some (E.avcodec_receive_frame dec).2.2,
                         vframe := (E.avcodec_receive_frame dec).2.1 }, some x⟩ := by
        unfold try_receive_video
        simp only [hd]
        rw [if_pos hq]
      rw [e]
      exact ⟨rfl, rfl, hk⟩

/-- The audio drain on a decoder that keeps reporting no-output. -/
theorem try_receive_audio_quiet {E : Engine} (v : VNEVideo E) (oa : Option VNEAudioFrame)
    (h : keeps_no_output E v.adec) :
    ∃ ra, try_receive_audio v oa = some ra ∧ ra.ret = 0 ∧ ra.out_audio = oa
      ∧ keeps_no_output E ra.v.adec := by
  rcases hd : v.adec with _ | dec
  · have e : try_receive_audio v oa = some ⟨0, v, oa⟩ := by
      unfold try_receive_audio
      split
      · rename_i heq
        rw [hd] at heq; cases heq
      · rfl
    exact ⟨_, e, rfl, rfl, by simpa [hd] using (hd ▸ h)⟩
  · rcases oa with _ | x
    · have e : try_receive_audio v none = some ⟨0, v, none⟩ := by
        unfold try_receive_audio
        split
        · rename_i hx
          cases hx
        · rfl
      exact ⟨_, e, rfl, rfl, h⟩
    · rw [hd] at h
      obtain ⟨hq, hk⟩ := keeps_no_output_step E dec h
      have e : try_receive_audio v (some x)
          = some ⟨0,
              { v with adec := some (E.avcodec_receive_frame dec).2.2,
                       aframe := (E.avcodec_receive_frame dec).2.1 }, some x⟩ := by
        unfold try_receive_audio
        split
        · rename_i d0 x0 hd0 hx0
          have hdd : d0 = dec := by rw [hd] at hd0; exact (Option.some.inj hd0).symm
          subst hdd
          lift_lets
          intro r ret dec1 v1 channels samples unref
          have hq' : ret = AVERROR_EAGAIN ∨ ret = AVERROR_EOF := hq
          rw [if_pos hq']
        · rename_i hne
          exact absurd rfl (hne dec x hd)
      exact ⟨_, e, rfl, rfl, hk⟩

/-- One call on a handle whose end-of-stream flag is set and whose decoders
keep reporting no-output: `VNE_FRAME_EOF`, slots and demuxer untouched, and
the handle is again such a handle. -/
theorem next_eof_step {E : Engine} (fuel : Nat) (w : VNEVideo E) (ov : Option VNEVideoFrame)
    (oa : Option VNEAudioFrame) (he : w.eof ≠ 0) (hv : keeps_no_output E w.vdec)
    (ha : keeps_no_output E w.adec) :
    ∃ w', vne_video_next (fuel + 1) (some w) ov oa = some ⟨VNE_FRAME_EOF, some w', ov, oa⟩
      ∧ w'.fmt = w.fmt ∧ w'.eof ≠ 0 ∧ keeps_no_output E w'.vdec
      ∧ keeps_no_output E w'.adec := by
  obtain ⟨v0, vout, vkeep⟩ := try_receive_video_quiet w ov hv
  obtain ⟨vfmt, vadec, veof, -, -, -, -⟩ := try_receive_video_frame w ov
  have ha' : keeps_no_output E (try_receive_video w ov).v.adec := by rw [vadec]; exact ha
  obtain ⟨ra, hra, a0, aout, akeep⟩ := try_receive_audio_quiet (try_receive_video w ov).v oa ha'
  obtain ⟨afmt, avdec, aeof, -, -, -, -, -, -⟩ :=
    try_receive_audio_frame (try_receive_video w ov).v oa ra hra
  have he' : ra.v.eof ≠ 0 := by rw [aeof, veof]; exact he
  refine ⟨ra.v, ?_, by rw [afmt, vfmt], he', by rw [avdec]; exact vkeep, akeep⟩
  rw [next_fwd_audio fuel w ov oa ra v0 hra, if_neg (by rw [a0]; decide),
    if_neg (by rw [a0]; decide), if_pos he', aout]

/-- Every later call on such a handle returns `VNE_FRAME_EOF`, writes no
slot and leaves the demuxer alone. -/
theorem next_calls_eof {E : Engine} (fuel : Nat)
    (slots : List (Option VNEVideoFrame × Option VNEAudioFrame)) :
    ∀ (w : VNEVideo E), w.eof ≠ 0 → keeps_no_output E w.vdec → keeps_no_output E w.adec →
      ∃ rs, next_calls (fuel + 1) w slots = some rs
        ∧ rs.map (fun x => x.ret) = slots.map (fun _ => VNE_FRAME_EOF)
        ∧ rs.map (fun x => (x.out_video, x.out_audio)) = slots
        ∧ ∀ x ∈ rs, ∃ w', x.v = some w' ∧ w'.fmt = w.fmt := by
  induction slots with
  | nil =>
    intro w _ _ _
    exact ⟨[], rfl, rfl, rfl, by simp⟩
  | cons s ss ih =>
    intro w he hv ha
    obtain ⟨w', hstep, hfmt, he', hv', ha'⟩ := next_eof_step fuel w s.1 s.2 he hv ha
    obtain ⟨rs, hrs, hret, hslots, hall⟩ := ih w' he' hv' ha'
    refine ⟨⟨VNE_FRAME_EOF, some w', s.1, s.2⟩ :: rs, ?_, ?_, ?_, ?_⟩
    · simp only [next_calls, hstep, hrs, Option.map_some']
    · simp only [List.map_cons, hret]
    · simp only [List.map_cons, hslots]
    · intro x hx
      rcases List.mem_cons.mp hx with rfl | hx
      · exact ⟨w', rfl, hfmt⟩
      · obtain ⟨w'', h1, h2⟩ := hall x hx
        exact ⟨w'', h1, by rw [h2, hfmt]⟩

/-- C9: `vne_video_next` returns `VNE_FRAME_EOF` only from a loop iteration
in which both drains returned no-output and the end-of-stream flag was set;
and once a call has returned it, then, as long as the decoders keep reporting
no-output, every later call on the handle (no seek in between) returns
`VNE_FRAME_EOF` again, writes neither output slot and leaves the demuxer
untouched. -/
theorem eof_after_drain_and_sticky {E : Engine} (fuel : Nat) (v : VNEVideo E)
    (ov : Option VNEVideoFrame) (oa : Option VNEAudioFrame) (r : NextResult E)
    (h : vne_video_next fuel (some v) ov oa = some r) (hr : r.ret = VNE_FRAME_EOF) :
    (∃ u ra, (try_receive_video u ov).ret = 0
        ∧ try_receive_audio (try_receive_video u ov).v oa = some ra
        ∧ ra.ret = 0 ∧ ra.v.eof ≠ 0 ∧ r.v = some ra.v)
    ∧ ∃ w, r.v = some w ∧ w.eof ≠ 0
        ∧ (keeps_no_output E w.vdec → keeps_no_output E w.adec →
            ∀ (slots : List (Option VNEVideoFrame × Option VNEAudioFrame)) (fuel' : Nat),
              ∃ rs, next_calls (fuel' + 1) w slots = some rs
                ∧ rs.map (fun x => x.ret) = slots.map (fun _ => VNE_FRAME_EOF)
                ∧ rs.map (fun x => (x.out_video, x.out_audio)) = slots
                ∧ ∀ x ∈ rs, ∃ w', x.v = some w' ∧ w'.fmt = w.fmt) := by
  obtain ⟨u, ra, h1, h2, h3, h4, h5⟩ := next_eof_inv fuel v ov oa r h hr
  refine ⟨⟨u, ra, h1, h2, h3, h4, h5⟩, ra.v, h5, h4, ?_⟩
  intro hv ha slots fuel'
  exact next_calls_eof fuel' slots ra.v h4 hv ha

theorem demo_empty_keeps_no_output :
    keeps_no_output demoEngine (some ([] : List (Int × AVFrame))) := by
  intro c0 hc0 n
  have e : c0 = ([] : List (Int × AVFrame)) := (Option.some.inj hc0).symm
  subst e
  have hs : ∀ k, drained_state demoEngine ([] : List (Int × AVFrame)) k
      = ([] : List (Int × AVFrame)) := by
    intro k
    induction k with
    | zero => rfl
    | succ k ih => simp only [drained_state, ih]; rfl
  rw [hs n]
  exact Or.inl rfl

theorem eof_after_drain_and_sticky_witness :
    ∃ (w : VNEVideo demoEngine) (rs : List (NextResult demoEngine)), w.eof ≠ 0
      ∧ next_calls 1 w [(some slotV, some slotA), (none, none)] = some rs
      ∧ rs.map (fun x => x.ret) = [VNE_FRAME_EOF, VNE_FRAME_EOF] :=
  have h := eof_after_drain_and_sticky 2 (demoHandle [] none [] 0) (some slotV) (some slotA)
    ⟨VNE_FRAME_EOF,
      some { demoHandle [] none [] 1 with fmt := some [], pkt := ⟨0, 0⟩ }, some slotV, some slotA⟩
    rfl rfl
  have hw := h.2.choose_spec
  have hv : keeps_no_output demoEngine h.2.choose.vdec := by
    have e : h.2.choose = { demoHandle [] none [] 1 with fmt := some [], pkt := ⟨0, 0⟩ } :=
      (Option.some.inj hw.1).symm
    rw [e]; exact demo_empty_keeps_no_output
  have ha : keeps_no_output demoEngine h.2.choose.adec := by
    have e : h.2.choose = { demoHandle [] none [] 1 with fmt := some [], pkt := ⟨0, 0⟩ } :=
      (Option.some.inj hw.1).symm
    rw [e]; intro c0 hc0; cases hc0
  have hs := hw.2.2 hv ha [(some slotV, some slotA), (none, none)] 0
  ⟨h.2.choose, hs.choose, hw.2.1, hs.choose_spec.1, hs.choose_spec.2.1⟩

/-- C10 as stated fails: on a handle without audio a call can also return
`VNE_FRAME_ERROR`, here once because the demuxer reports a read error, and
once because the frame decoded from a delivered video packet cannot be
converted. -/
theorem next_without_audio_can_fail :
    (demoHandle [] none [(-5, ⟨0, 0⟩)] 0).adec = none
    ∧ (demoHandle [] none [(-5, ⟨0, 0⟩)] 0).astream_index = -1
    ∧ (vne_video_next 1 (some (demoHandle [] none [(-5, ⟨0, 0⟩)] 0)) (some slotV)
        (some slotA)).map (fun r => r.ret) = some VNE_FRAME_ERROR
    ∧ (vne_video_next 2 (some (demoHandle [] none [(0, ⟨0, 0⟩)] 0)) (some slotV)
        (some slotA)).map (fun r => r.ret) = some VNE_FRAME_ERROR
    ∧ VNE_FRAME_ERROR ≠ VNE_FRAME_VIDEO ∧ VNE_FRAME_ERROR ≠ VNE_FRAME_EOF := by
  refine ⟨rfl, rfl, rfl, rfl, by decide, by decide⟩

/-- On a handle without audio decoder, a packet that the demuxer delivers for
a stream other than the selected video stream is dropped: the pull only
advances the demuxer and clears the packet. -/
theorem next_pull_discards {E : Engine} (v : VNEVideo E) (d : E.D) (hn : v.adec = none)
    (hd : v.fmt = some d) (h1 : (E.av_read_frame d).1 ≠ AVERROR_EOF)
    (h2 : 0 ≤ (E.av_read_frame d).1)
    (h3 : (E.av_read_frame d).2.1.stream_index ≠ v.vstream_index) :
    next_pull v = some (Sum.inl { v with fmt := some (E.av_read_frame d).2.2,
                                         pkt := E.av_packet_unref (E.av_read_frame d).2.1 }) := by
  unfold next_pull
  split
  · rename_i hf
    rw [hd] at hf; cases hf
  · rename_i d0 hf
    have e : d0 = d := by rw [hd] at hf; exact (Option.some.inj hf).symm
    subst e
    lift_lets
    intro r ret v1 v2 v3 v4 routed
    have c1 : ¬ (ret = AVERROR_EOF) := h1
    have c2 : ¬ (ret < 0) := not_lt.mpr h2
    rw [if_neg c1, if_neg c2]
    have hr : routed = some v1 := by
      have k1 : ¬ (v1.pkt.stream_index = v1.vstream_index) := h3
      simp only [routed]
      rw [if_neg k1]
      have k2 : v1.adec = none := hn
      split_ifs
      · rw [k2]
      · rfl
    rw [hr]

/-- C10, amended: on a handle without audio decoder every `vne_video_next`
call that returns, returns Video, EndOfStream or Error, never Audio; it
leaves the audio slot as it was and the handle without audio decoder, so the
same holds for every later call.  Whatever packet the demuxer delivers for a
stream other than the selected video stream is discarded without being
submitted to a decoder. -/
theorem next_without_audio {E : Engine} (v : VNEVideo E) (hn : v.adec = none) :
    (∀ (fuel : Nat) (ov : Option VNEVideoFrame) (oa : Option VNEAudioFrame) (r : NextResult E),
        vne_video_next fuel (some v) ov oa = some r →
          (r.ret = VNE_FRAME_VIDEO ∨ r.ret = VNE_FRAME_EOF ∨ r.ret = VNE_FRAME_ERROR)
          ∧ r.ret ≠ VNE_FRAME_AUDIO
          ∧ r.out_audio = oa
          ∧ ∃ w, r.v = some w ∧ w.adec = none)
    ∧ (∀ d, v.fmt = some d → (E.av_read_frame d).1 ≠ AVERROR_EOF →
        0 ≤ (E.av_read_frame d).1 →
        (E.av_read_frame d).2.1.stream_index ≠ v.vstream_index →
        ∃ w, next_pull v = some (Sum.inl w) ∧ w.vdec = v.vdec ∧ w.adec = none
          ∧ w.fmt = some (E.av_read_frame d).2.2) := by
  constructor
  · intro fuel ov oa r h
    obtain ⟨hna, hw⟩ := next_no_audio fuel v ov oa r hn h
    obtain ⟨-, hsa, hnn⟩ := next_slots fuel v ov oa r h
    refine ⟨?_, hna, hsa hna, hw⟩
    cases hret : r.ret
    · exact absurd hret hnn
    · exact Or.inl rfl
    · exact absurd hret hna
    · exact Or.inr (Or.inl rfl)
    · exact Or.inr (Or.inr rfl)
  · intro d hd h1 h2 h3
    exact ⟨_, next_pull_discards v d hn hd h1 h2 h3, rfl, hn, rfl⟩

theorem next_without_audio_witness :
    ∃ r, vne_video_next 3 (some (demoHandle [] none [(0, ⟨5, 1⟩), (0, ⟨0, 7⟩)] 0))
        (some slotV) (some slotA) = some r
      ∧ r.ret = VNE_FRAME_VIDEO ∧ r.out_audio = some slotA :=
  have hrun : ∃ r, vne_video_next 3 (some (demoHandle [] none [(0, ⟨5, 1⟩), (0, ⟨0, 7⟩)] 0))
      (some slotV) (some slotA) = some r ∧ r.ret = VNE_FRAME_VIDEO := ⟨_, rfl, rfl⟩
  have h := (next_without_audio (demoHandle [] none [(0, ⟨5, 1⟩), (0, ⟨0, 7⟩)] 0) rfl).1 3
    (some slotV) (some slotA) hrun.choose hrun.choose_spec.1
  ⟨hrun.choose, hrun.choose_spec.1, hrun.choose_spec.2, h.2.2.1⟩

/-! ## Releasing frames -/

/-- C12: release is idempotent.  Applying `vne_video_free_video_frame`
(resp. `vne_video_free_audio_frame`) a second time gives the same frame and
the same list of released addresses as applying it once: the frame has a null
data pointer and every other field zero, and `av_free` has been called once
with the buffer's address if it was non-null and not at all otherwise, so at
most once over both applications.  On a null frame pointer the function does
nothing. -/
theorem free_frame_idempotent (fv : Option VNEVideoFrame) (fa : Option VNEAudioFrame)
    (released : List Nat) :
    (vne_video_free_video_frame (vne_video_free_video_frame fv released).1
        (vne_video_free_video_frame fv released).2 = vne_video_free_video_frame fv released
      ∧ (vne_video_free_video_frame fv released).1
          = fv.map (fun _ => (⟨0, 0, 0, 0, 0⟩ : VNEVideoFrame))
      ∧ (vne_video_free_video_frame fv released).2
          = (match fv with
              | some f => if f.data ≠ 0 then released ++ [f.data] else released
              | none => released)
      ∧ vne_video_free_video_frame none released = (none, released))
    ∧ (vne_video_free_audio_frame (vne_video_free_audio_frame fa released).1
        (vne_video_free_audio_frame fa released).2 = vne_video_free_audio_frame fa released
      ∧ (vne_video_free_audio_frame fa released).1
          = fa.map (fun _ => (⟨0, 0, 0, 0, 0, 0⟩ : VNEAudioFrame))
      ∧ (vne_video_free_audio_frame fa released).2
          = (match fa with
              | some f => if f.data ≠ 0 then released ++ [f.data] else released
              | none => released)
      ∧ vne_video_free_audio_frame none released = (none, released)) := by
  constructor
  · rcases fv with _ | f
    · exact ⟨rfl, rfl, rfl, rfl⟩
    · refine ⟨?_, rfl, rfl, rfl⟩
      simp [vne_video_free_video_frame]
  · rcases fa with _ | f
    · exact ⟨rfl, rfl, rfl, rfl⟩
    · refine ⟨?_, rfl, rfl, rfl⟩
      simp [vne_video_free_audio_frame]

/-! ## Seeking -/

/-- The loop iteration in which both drains return `0` and the end-of-stream
flag is clear goes on with the demux read. -/
theorem next_fwd_pull {E : Engine} (fuel : Nat) (v : VNEVideo E) (ov : Option VNEVideoFrame)
    (oa : Option VNEAudioFrame) (ra : RecvAudio E) (h : (try_receive_video v ov).ret = 0)
    (hra : try_receive_audio (try_receive_video v ov).v oa = some ra) (ha : ra.ret = 0)
    (he : ra.v.eof = 0) :
    (next_pull ra.v = none → vne_video_next (fuel + 1) (some v) ov oa = none)
    ∧ (∀ x, next_pull ra.v = some (Sum.inr x) →
        vne_video_next (fuel + 1) (some v) ov oa = some ⟨VNE_FRAME_ERROR, some x, ov, oa⟩)
    ∧ (∀ x, next_pull ra.v = some (Sum.inl x) →
        vne_video_next (fuel + 1) (some v) ov oa = vne_video_next fuel (some x) ov oa) := by
  have hoa : ra.out_audio = oa :=
    (try_receive_audio_frame (try_receive_video v ov).v oa ra hra).2.2.2.2.2.2.2.1
      (by rw [ha]; decide)
  have e := next_fwd_audio fuel v ov oa ra h hra
  rw [if_neg (by rw [ha]; decide), if_neg (by rw [ha]; decide),
    if_neg (by rw [he]; exact fun hne => hne rfl), hoa] at e
  refine ⟨?_, ?_, ?_⟩
  · intro hp; rw [e, hp]
  · intro x hp; rw [e, hp]
  · intro x hp; rw [e, hp]

/-- C13 as stated fails: the video decoder rejects the first submit of the
pulled packet transiently (a second submit of the same packet would be
accepted and give a frame), but the scheduler does not submit it again: the
call goes on to the end of the stream and returns `VNE_FRAME_EOF` with an
empty decoder, so the packet is dropped.  With a decoder that is not busy the
same stream gives a video frame. -/
theorem next_drops_rejected_packet :
    busyEngine.avcodec_send_packet (true, []) (some ⟨0, 7⟩) = (AVERROR_EAGAIN, (false, []))
    ∧ busyEngine.avcodec_send_packet (false, []) (some ⟨0, 7⟩)
        = (0, (false, [(0, ⟨4, 2, 0, 8, 40, 7⟩)]))
    ∧ (vne_video_next 3 (some (busyHandle (true, []) [(0, ⟨0, 7⟩)] 0)) (some slotV)
        (some slotA)).map (fun r => (r.ret, r.v.map (fun w => w.vdec), r.out_video))
        = some (VNE_FRAME_EOF, some (some (false, [])), some slotV)
    ∧ (vne_video_next 2 (some (busyHandle (false, []) [(0, ⟨0, 7⟩)] 0)) (some slotV)
        (some slotA)).map (fun r => r.ret) = some VNE_FRAME_VIDEO := by
  refine ⟨rfl, rfl, rfl, rfl⟩

/-- The demux read of one iteration on a packet of the selected video stream:
one submit to the video decoder, whose return value plays no role, then the
packet is released. -/
theorem next_pull_video_packet {E : Engine} (v : VNEVideo E) (d : E.D) (dec : E.C)
    (hd : v.fmt = some d) (hv : v.vdec = some dec)
    (h1 : (E.av_read_frame d).1 ≠ AVERROR_EOF) (h2 : 0 ≤ (E.av_read_frame d).1)
    (h3 : (E.av_read_frame d).2.1.stream_index = v.vstream_index) :
    next_pull v = some (Sum.inl
      { v with fmt := some (E.av_read_frame d).2.2,
               vdec := some (E.avcodec_send_packet dec (some (E.av_read_frame d).2.1)).2,
               pkt := E.av_packet_unref (E.av_read_frame d).2.1 }) := by
  unfold next_pull
  split
  · rename_i hf
    rw [hd] at hf; cases hf
  · rename_i d0 hf
    have e : d0 = d := by rw [hd] at hf; exact (Option.some.inj hf).symm
    subst e
    lift_lets
    intro r ret v1 v2 v3 v4 routed
    have c1 : ¬ (ret = AVERROR_EOF) := h1
    have c2 : ¬ (ret < 0) := not_lt.mpr h2
    rw [if_neg c1, if_neg c2]
    have hr : routed = some { v1 with vdec := some (E.avcodec_send_packet dec (some v1.pkt)).2 } := by
      have k1 : v1.pkt.stream_index = v1.vstream_index := h3
      have k2 : v1.vdec = some dec := hv
      simp only [routed]
      rw [if_pos k1, k2]
    rw [hr]

/-- The demux read of one iteration on a packet of the selected audio stream:
one submit to the audio decoder, whose return value plays no role, then the
packet is released. -/
theorem next_pull_audio_packet {E : Engine} (v : VNEVideo E) (d : E.D) (dec : E.C)
    (hd : v.fmt = some d) (ha : v.adec = some dec)
    (h1 : (E.av_read_frame d).1 ≠ AVERROR_EOF) (h2 : 0 ≤ (E.av_read_frame d).1)
    (h3 : (E.av_read_frame d).2.1.stream_index ≠ v.vstream_index)
    (h4 : (E.av_read_frame d).2.1.stream_index = v.astream_index) :
    next_pull v = some (Sum.inl
      { v with fmt := some (E.av_read_frame d).2.2,
               adec := some (E.avcodec_send_packet dec (some (E.av_read_frame d).2.1)).2,
               pkt := E.av_packet_unref (E.av_read_frame d).2.1 }) := by
  unfold next_pull
  split
  · rename_i hf
    rw [hd] at hf; cases hf
  · rename_i d0 hf
    have e : d0 = d := by rw [hd] at hf; exact (Option.some.inj hf).symm
    subst e
    lift_lets
    intro r ret v1 v2 v3 v4 routed
    have c1 : ¬ (ret = AVERROR_EOF) := h1
    have c2 : ¬ (ret < 0) := not_lt.mpr h2
    rw [if_neg c1, if_neg c2]
    have hr : routed = some { v1 with adec := some (E.avcodec_send_packet dec (some v1.pkt)).2 } := by
      have k1 : ¬ (v1.pkt.stream_index = v1.vstream_index) := h3
      have k2 : v1.pkt.stream_index = v1.astream_index := h4
      have k3 : v1.adec = some dec := ha
      simp only [routed]
      rw [if_neg k1, if_pos k2, k3]
    rw [hr]

/-- C13, amended: in the loop iteration in which both drains have reported
no-output, the end-of-stream flag is clear and the demuxer delivers a packet
of the selected video (resp. audio) stream, the packet is submitted to that
decoder exactly once and then released, and the loop goes back to draining
with the decoder as that one submit left it.  The value the submit returns is
not inspected: a rejected submit is not retried. -/
theorem next_submits_once {E : Engine} (v : VNEVideo E) (ov : Option VNEVideoFrame)
    (oa : Option VNEAudioFrame) (fuel : Nat) (ra : RecvAudio E) (d : E.D)
    (hv0 : (try_receive_video v ov).ret = 0)
    (hra : try_receive_audio (try_receive_video v ov).v oa = some ra)
    (ha0 : ra.ret = 0) (he : ra.v.eof = 0) (hd : ra.v.fmt = some d)
    (h1 : (E.av_read_frame d).1 ≠ AVERROR_EOF) (h2 : 0 ≤ (E.av_read_frame d).1) :
    (∀ dec, ra.v.vdec = some dec →
        (E.av_read_frame d).2.1.stream_index = ra.v.vstream_index →
        vne_video_next (fuel + 1) (some v) ov oa
          = vne_video_next fuel (some
              { ra.v with fmt := some (E.av_read_frame d).2.2,
                          vdec := some (E.avcodec_send_packet dec
                            (some (E.av_read_frame d).2.1)).2,
                          pkt := E.av_packet_unref (E.av_read_frame d).2.1 }) ov oa)
    ∧ (∀ dec, ra.v.adec = some dec →
        (E.av_read_frame d).2.1.stream_index ≠ ra.v.vstream_index →
        (E.av_read_frame d).2.1.stream_index = ra.v.astream_index →
        vne_video_next (fuel + 1) (some v) ov oa
          = vne_video_next fuel (some
              { ra.v with fmt := some (E.av_read_frame d).2.2,
                          adec := some (E.avcodec_send_packet dec
                            (some (E.av_read_frame d).2.1)).2,
                          pkt := E.av_packet_unref (E.av_read_frame d).2.1 }) ov oa) := by
  have hp := (next_fwd_pull fuel v ov oa ra hv0 hra ha0 he).2.2
  constructor
  · intro dec hv h3
    exact hp _ (next_pull_video_packet ra.v d dec hd hv h1 h2 h3)
  · intro dec ha h3 h4
    exact hp _ (next_pull_audio_packet ra.v d dec hd ha h1 h2 h3 h4)

theorem next_submits_once_witness :
    vne_video_next 3 (some (busyHandle (true, []) [(0, ⟨0, 7⟩)] 0)) (some slotV) (some slotA)
      = vne_video_next 2 (some (busyHandle (false, []) [] 0)) (some slotV) (some slotA) :=
  (next_submits_once (busyHandle (true, []) [(0, ⟨0, 7⟩)] 0) (some slotV) (some slotA) 2
    ⟨0, busyHandle (true, []) [(0, ⟨0, 7⟩)] 0, some slotA⟩ [(0, ⟨0, 7⟩)]
    rfl rfl rfl rfl rfl (by decide) (by decide)).1 (true, []) rfl rfl

/-! ## The position invariant of the adapter -/

theorem vne_file_tell_lt (fp : FILE) : vne_file_tell fp < 2 ^ 63 := by
  unfold vne_file_tell
  split
  · rename_i h; exact_mod_cast h
  · decide

theorem vne_file_size_lt (fp : FILE) : (vne_file_size fp).1 < 2 ^ 63 := by
  unfold vne_file_size
  simp only
  split_ifs
  · norm_num
  · norm_num
  · have h := vne_file_tell_lt (vne_file_seek fp 0 SEEK_END).2
    simpa using h

/-- A probe that returns `1` stores a payload size in `[0, 2^63)`. -/
theorem probe_out_size_range (fp : FILE) (out : Int)
    (h : (vne_video_probe_header fp out).ret = 1) :
    0 ≤ (vne_video_probe_header fp out).out_size
    ∧ (vne_video_probe_header fp out).out_size < 2 ^ 63 := by
  generalize hp : vne_video_probe_header fp out = p at h ⊢
  unfold vne_video_probe_header at hp
  lift_lets at hp
  extract_lets s r hdr version size t total size2 at hp
  have ht : total < 2 ^ 63 := vne_file_size_lt _
  split_ifs at hp with c1 c2 c3 c4 c5 c6
  all_goals first
    | (rw [← hp] at h; simp at h; done)
    | skip
  rw [← hp]
  simp only
  have hb : (size2 : Int) < 2 ^ 63 := by
    have h16 : (16 : Int) ≤ total := by
      have := c5; omega
    have hu : toU64 (total - 16) = (total - 16).toNat := toU64_id _ (by omega) (by omega)
    have hle : size2 ≤ toU64 (total - 16) := Nat.le_of_not_gt c6
    rw [hu] at hle
    omega
  rw [wrap64_id _ (by omega) hb]
  exact ⟨by omega, hb⟩
/-- The adapter that `vne_video_open` creates satisfies the invariant. -/
theorem open_source_inv (E : Engine) (path : String) (io : VNEVideoIO)
    (h : open_source E path = ByteSource.adapter io) :
    adapter_inv io ∧ io.pos = 0 ∧ io.data_offset = 16 := by
  unfold open_source at h
  split at h
  · rename_i fp hfp
    lift_lets at h
    extract_lets pr at h
    split_ifs at h with c1 c2 c3
    simp only [ByteSource.adapter.injEq] at h
    have hr := probe_out_size_range fp 0 c2
    rw [← h]
    exact ⟨⟨le_refl _, hr.1, hr.2⟩, rfl, rfl⟩
  · cases h

theorem fread_length_le (fp : FILE) (n : Nat) : (fread fp n).1.length ≤ n := by
  simp only [fread, List.length_take]
  exact Nat.min_le_left _ _

/-- A read with a non-negative buffer size keeps the invariant, never changes
`data_size` or `data_offset`, and leaves `pos` alone unless it returns a
positive byte count. -/
theorem read_inv (io : VNEVideoIO) (n : Int) (hinv : adapter_inv io) (hn0 : 0 ≤ n)
    (hn1 : n < 2 ^ 31) :
    ∃ io', (vne_video_read (some io) n).io = some io'
      ∧ adapter_inv io' ∧ io'.data_size = io.data_size ∧ io'.data_offset = io.data_offset
      ∧ ((vne_video_read (some io) n).ret ≤ 0 → io'.pos = io.pos)
      ∧ ((vne_video_read (some io) n).ret = AVERROR_EOF
          ∨ (vne_video_read (some io) n).ret = AVERROR_EIO
          ∨ 0 < (vne_video_read (some io) n).ret) := by
  obtain ⟨f, off, ds, p⟩ := io
  obtain ⟨hp0, hp1, hds⟩ := hinv
  simp only at hp0 hp1 hds
  rcases f with _ | fp
  · exact ⟨_, rfl, ⟨hp0, hp1, hds⟩, rfl, rfl, fun _ => rfl, Or.inl rfl⟩
  · have hrem : wrap64 (ds - p) = ds - p := wrap64_id _ (by omega) (by omega)
    by_cases hle : ds - p ≤ 0
    · have e : vne_video_read (some ⟨some fp, off, ds, p⟩) n
          = ⟨ AVERROR_EOF, [], some ⟨some fp, off, ds, p⟩⟩ := by
        simp only [vne_video_read, hrem, hle, if_true]
      rw [e]
      exact ⟨_, rfl, ⟨hp0, hp1, hds⟩, rfl, rfl, fun _ => rfl, Or.inl rfl⟩
    · -- the clamped request
      have htr : ∃ k : Nat, (if n > ds - p then wrap32 (ds - p) else n) = (k : Int)
          ∧ (k : Int) ≤ ds - p ∧ k < 2 ^ 31 := by
        by_cases hgt : n > ds - p
        · refine ⟨(ds - p).toNat, ?_, by omega, by omega⟩
          rw [if_pos hgt, wrap32_id _ (by omega) (by omega)]
          omega
        · refine ⟨n.toNat, ?_, by omega, by omega⟩
          rw [if_neg hgt]
          omega
      obtain ⟨k, hk, hk1, hk2⟩ := htr
      have hu : toU64 (k : Int) = k := toU64_nat k (by omega)
      have hgotle := fread_length_le (vne_file_seek fp (wrap64 (off + p)) SEEK_SET).2 k
      generalize hs : vne_file_seek fp (wrap64 (off + p)) SEEK_SET = s at hgotle
      generalize hr : fread s.2 k = r at hgotle
      have hgot1 : (r.1.length : Int) ≤ ds - p := by omega
      have hgot2 : r.1.length < 2 ^ 31 := by omega
      have hw32 : wrap32 (r.1.length : Int) = (r.1.length : Int) := wrap32_nat _ hgot2
      have hw64 : wrap64 (p + (r.1.length : Int)) = p + (r.1.length : Int) :=
        wrap64_id _ (by omega) (by omega)
      have hsum0 : 0 ≤ p + (r.1.length : Int) := by omega
      have hsum1 : p + (r.1.length : Int) ≤ ds := by omega
      have hpos : r.1.length ≠ 0 → (0 : Int) < (r.1.length : Int) := by omega
      clear hgot1 hgot2 hgotle hk1 hk2 hrem
      have e : vne_video_read (some ⟨some fp, off, ds, p⟩) n
          = if s.1 ≠ 0 then ⟨ AVERROR_EIO, [], some ⟨some s.2, off, ds, p⟩⟩
            else if r.1.length = 0 then ⟨ AVERROR_EOF, [], some ⟨some r.2, off, ds, p⟩⟩
            else ⟨(r.1.length : Int), r.1,
                    some ⟨some r.2, off, ds, p + (r.1.length : Int)⟩⟩ := by
        simp only [vne_video_read, wrap64_id (ds - p) (by omega) (by omega), hle, if_false, hk,
          hu, hs, hr, hw32, hw64]
      rw [e]
      split_ifs with c1 c2
      · exact ⟨_, rfl, ⟨hp0, hp1, hds⟩, rfl, rfl, fun _ => rfl, Or.inr (Or.inl rfl)⟩
      · exact ⟨_, rfl, ⟨hp0, hp1, hds⟩, rfl, rfl, fun _ => rfl, Or.inl rfl⟩
      · refine ⟨_, rfl, ⟨hsum0, hsum1, hds⟩, rfl, rfl, ?_, Or.inr (Or.inr (hpos c2))⟩
        intro hret
        exact absurd (hpos c2) (not_lt.mpr hret)

/-- A seek keeps the invariant, and a seek that returns `-1` leaves the
adapter as it was. -/
theorem seek_inv (io : VNEVideoIO) (offset whence : Int) (hinv : adapter_inv io) :
    ∃ io', (vne_video_seek (some io) offset whence).io = some io'
      ∧ adapter_inv io' ∧ io'.data_size = io.data_size ∧ io'.data_offset = io.data_offset
      ∧ ((vne_video_seek (some io) offset whence).ret = -1 → io' = io) := by
  obtain ⟨hp0, hp1, hds⟩ := hinv
  have hds0 : 0 ≤ io.data_size := le_trans hp0 hp1
  unfold vne_video_seek
  simp only
  split
  · exact ⟨_, rfl, ⟨hp0, hp1, hds⟩, rfl, rfl, fun _ => rfl⟩
  · by_cases c1 : whence = AVSEEK_SIZE
    · rw [if_pos c1]
      exact ⟨_, rfl, ⟨hp0, hp1, hds⟩, rfl, rfl, fun _ => rfl⟩
    · rw [if_neg c1]
      generalize (if whence = SEEK_SET then some offset
        else if whence = SEEK_CUR then some (wrap64 (io.pos + offset))
        else if whence = SEEK_END then some (wrap64 (io.data_size + offset))
        else none) = tgt
      rcases tgt with _ | new_pos
      · exact ⟨_, rfl, ⟨hp0, hp1, hds⟩, rfl, rfl, fun _ => rfl⟩
      · simp only
        by_cases c2 : new_pos < 0
        · rw [if_pos c2]
          exact ⟨_, rfl, ⟨hp0, hp1, hds⟩, rfl, rfl, fun _ => rfl⟩
        · rw [if_neg c2]
          by_cases c3 : new_pos > io.data_size
          · simp only [if_pos c3]
            refine ⟨_, rfl, ⟨hds0, le_refl _, hds⟩, rfl, rfl, ?_⟩
            intro hret
            omega
          · simp only [if_neg c3]
            refine ⟨_, rfl, ⟨not_lt.mp c2, not_lt.mp c3, hds⟩, rfl, rfl, ?_⟩
            intro hret
            omega

/-- C14: `0 ≤ pos ≤ data_size` holds for the adapter created by
`vne_video_open`, and is preserved by every `vne_video_read` and by every
`vne_video_seek` with arbitrary arguments (the sums `pos + offset` and
`data_size + offset` taken modulo `2^64`); every seek that returns `-1` and
every read that returns `AVERROR_EOF` or the I/O error leaves `pos`
unchanged.  The buffer size of a read is that of the read callback's
contract: an `int` that is not negative. -/
theorem adapter_position_invariant :
    (∀ (E : Engine) (path : String) (io : VNEVideoIO),
        open_source E path = ByteSource.adapter io → adapter_inv io)
    ∧ (∀ (io : VNEVideoIO) (n : Int), adapter_inv io → 0 ≤ n → n < 2 ^ 31 →
        ∃ io', (vne_video_read (some io) n).io = some io' ∧ adapter_inv io'
          ∧ io'.data_size = io.data_size
          ∧ (((vne_video_read (some io) n).ret = AVERROR_EOF
              ∨ (vne_video_read (some io) n).ret = AVERROR_EIO) → io'.pos = io.pos))
    ∧ (∀ (io : VNEVideoIO) (offset whence : Int), adapter_inv io →
        ∃ io', (vne_video_seek (some io) offset whence).io = some io' ∧ adapter_inv io'
          ∧ io'.data_size = io.data_size
          ∧ ((vne_video_seek (some io) offset whence).ret = -1 → io'.pos = io.pos)) := by
  refine ⟨fun E path io h => (open_source_inv E path io h).1, ?_, ?_⟩
  · intro io n hinv hn0 hn1
    obtain ⟨io', h1, h2, h3, -, h5, -⟩ := read_inv io n hinv hn0 hn1
    refine ⟨io', h1, h2, h3, ?_⟩
    rintro (he | he)
    · exact h5 (by rw [he]; decide)
    · exact h5 (by rw [he]; decide)
  · intro io offset whence hinv
    obtain ⟨io', h1, h2, h3, -, h5⟩ := seek_inv io offset whence hinv
    exact ⟨io', h1, h2, h3, fun hret => by rw [h5 hret]⟩

theorem adapter_position_invariant_witness :
    adapter_inv midAdapter
    ∧ (∃ io', (vne_video_read (some midAdapter) 4).io = some io' ∧ adapter_inv io')
    ∧ ∃ io', (vne_video_seek (some midAdapter) (-9) SEEK_CUR).io = some io'
        ∧ ((vne_video_seek (some midAdapter) (-9) SEEK_CUR).ret = -1 → io'.pos = midAdapter.pos) :=
  have hinv : adapter_inv midAdapter := ⟨by decide, by decide, by decide⟩
  ⟨hinv,
   let ⟨io', h1, h2, _⟩ := adapter_position_invariant.2.1 midAdapter 4 hinv (by decide)
     (by decide); ⟨io', h1, h2⟩,
   let ⟨io', h1, _, _, h4⟩ := adapter_position_invariant.2.2 midAdapter (-9) SEEK_CUR hinv
   ⟨io', h1, h4⟩⟩

end VnefVideo
